import Mathlib

/-!
Verification of the CopilotX proxy (Polly2014/CopilotX) against its
natural-language specification.

The Python sources are shallowly embedded as executable Lean definitions:
  - `src/copilotx/proxy/translator.py`  : model mapping, request/response/stream translation
  - `src/copilotx/proxy/client.py`      : model-list cache
  - `src/copilotx/proxy/responses_stream.py` : Responses stream id tracker
  - `src/copilotx/auth/token.py`        : token manager
  - `src/copilotx/auth/storage.py`      : credential persistence

Python `dict.get` defaults are modelled with `Option`/`getD`; Python string
truthiness (empty string is false) is modelled explicitly; machine time and
uuid generation are threaded as explicit parameters.  Definitions named
`spec_...` follow the specification's words and are compared against the
definitions taken from the source.
-/

namespace CopilotX

/- ────────────────────────────────────────────────────────────────────
   String helpers: Python `sub in s` and `s.lower()` (ASCII), embedded
   as structurally recursive functions on character lists so that the
   kernel can evaluate them.
   ──────────────────────────────────────────────────────────────────── -/

/-- `charsLeading p s` is true when `p` is a leading segment of `s`
(models the anchored comparison used by substring search). -/
def charsLeading : List Char → List Char → Bool
  | [], _ => true
  | _ :: _, [] => false
  | a :: p, b :: s => a == b && charsLeading p s

/-- `charsContains sub s` is true when `sub` occurs contiguously in `s`. -/
def charsContains (sub : List Char) : List Char → Bool
  | [] => charsLeading sub []
  | c :: rest => charsLeading sub (c :: rest) || charsContains sub rest

/-- Python `sub in s` on strings. -/
def strIn (sub s : String) : Bool := charsContains sub.data s.data

/-- ASCII lower-casing of one character (models `str.lower` on the
ASCII model names this program handles). -/
def lowerChar (c : Char) : Char :=
  if 'A' ≤ c ∧ c ≤ 'Z' then Char.ofNat (c.toNat + 32) else c

/-- Python `s.lower()` (ASCII). -/
def lowerStr (s : String) : String := String.mk (s.data.map lowerChar)

/- ────────────────────────────────────────────────────────────────────
   translator.py — ANTHROPIC_TO_COPILOT_MODEL_MAP and
   map_anthropic_model_to_copilot  (claim C9)
   ──────────────────────────────────────────────────────────────────── -/

/-- The model-name mapping table from `translator.py`. -/
def ANTHROPIC_TO_COPILOT_MODEL_MAP : List (String × String) := [
  ("claude-sonnet-4-5-20250929", "claude-sonnet-4.5"),
  ("claude-sonnet-4.5-20250929", "claude-sonnet-4.5"),
  ("claude-4-5-sonnet", "claude-sonnet-4.5"),
  ("claude-4.5-sonnet", "claude-sonnet-4.5"),
  ("claude-sonnet-4-20250514", "claude-sonnet-4"),
  ("claude-sonnet-4", "claude-sonnet-4"),
  ("claude-4-sonnet", "claude-sonnet-4"),
  ("claude-opus-4-5-20250929", "claude-opus-4.5"),
  ("claude-opus-4.5-20250929", "claude-opus-4.5"),
  ("claude-4-5-opus", "claude-opus-4.5"),
  ("claude-4.5-opus", "claude-opus-4.5"),
  ("claude-opus-4-6", "claude-opus-4.6"),
  ("claude-opus-4.6", "claude-opus-4.6"),
  ("claude-4-6-opus", "claude-opus-4.6"),
  ("claude-4.6-opus", "claude-opus-4.6"),
  ("claude-opus-4-20250514", "claude-opus-41"),
  ("claude-opus-4", "claude-opus-41"),
  ("claude-4-opus", "claude-opus-41"),
  ("claude-haiku-4-5", "claude-haiku-4.5"),
  ("claude-haiku-4.5", "claude-haiku-4.5"),
  ("claude-4-5-haiku", "claude-haiku-4.5"),
  ("claude-4.5-haiku", "claude-haiku-4.5"),
  ("claude-3-5-sonnet-20241022", "claude-sonnet-4"),
  ("claude-3-5-sonnet-20240620", "claude-sonnet-4"),
  ("claude-3-5-sonnet", "claude-sonnet-4"),
  ("claude-3.5-sonnet", "claude-sonnet-4"),
  ("claude-3-opus-20240229", "claude-opus-41"),
  ("claude-3-opus", "claude-opus-41"),
  ("claude-3.0-opus", "claude-opus-41"),
  ("claude-3-haiku-20240307", "claude-haiku-4.5"),
  ("claude-3-haiku", "claude-haiku-4.5"),
  ("claude-3.0-haiku", "claude-haiku-4.5")]

/-- `map_anthropic_model_to_copilot` from `translator.py`: direct table
lookup, then the `"." in model` pass-through, then fuzzy matching on the
lower-cased name, and finally fall back to the original name. -/
def map_anthropic_model_to_copilot (model : String) : String :=
  match ANTHROPIC_TO_COPILOT_MODEL_MAP.lookup model with
  | some v => v
  | none =>
    if strIn "." model then model
    else
      let ml := lowerStr model
      if strIn "sonnet" ml then
        (if strIn "4-5" ml || strIn "4.5" ml then "claude-sonnet-4.5"
         else "claude-sonnet-4")
      else if strIn "opus" ml then
        (if strIn "4-6" ml || strIn "4.6" ml then "claude-opus-4.6"
         else if strIn "4-5" ml || strIn "4.5" ml then "claude-opus-4.5"
         else "claude-opus-41")
      else if strIn "haiku" ml then "claude-haiku-4.5"
      else model

/-- The fuzzy rule exactly as the spec words it: substrings
sonnet / opus / haiku of the lower-cased name with version hints
4-5 / 4.5 (and 4-6 / 4.6 for opus); a name matching none of them is
passed through unchanged. -/
def spec_fuzzy_rule (model : String) : String :=
  let ml := lowerStr model
  if strIn "sonnet" ml then
    (if strIn "4-5" ml || strIn "4.5" ml then "claude-sonnet-4.5"
     else "claude-sonnet-4")
  else if strIn "opus" ml then
    (if strIn "4-6" ml || strIn "4.6" ml then "claude-opus-4.6"
     else if strIn "4-5" ml || strIn "4.5" ml then "claude-opus-4.5"
     else "claude-opus-41")
  else if strIn "haiku" ml then "claude-haiku-4.5"
  else model

/-- Model resolution as claim C9 words it: the mapping table first, and
for every name not in the table directly the fuzzy rule (no intermediate
rule). -/
def spec_map_model_C9 (model : String) : String :=
  match ANTHROPIC_TO_COPILOT_MODEL_MAP.lookup model with
  | some v => v
  | none => spec_fuzzy_rule model

/- ────────────────────────────────────────────────────────────────────
   client.py — CopilotClient.list_models model cache  (claim C10)
   ──────────────────────────────────────────────────────────────────── -/

/-- `MODELS_CACHE_TTL` from `config.py` (seconds). -/
def MODELS_CACHE_TTL : Nat := 300

/-- One entry of the upstream model list; only the field the cache logic
reads is modelled, plus an identifier so entries are distinguishable.
`model_picker_enabled = none` models an absent key (default `True`). -/
structure ModelEntry where
  id : String
  model_picker_enabled : Option Bool
deriving DecidableEq, Repr

/-- The cache fields of `CopilotClient`. -/
structure ClientCache where
  models_cache : Option (List ModelEntry)
  models_cache_time : Nat
deriving DecidableEq, Repr

/-- Python truthiness of `self._models_cache`: false for `None` and for
the empty list. -/
def cacheTruthy : Option (List ModelEntry) → Bool
  | none => false
  | some l => !l.isEmpty

/-- Result of one `list_models` call: the returned list, the updated
cache fields, and whether an upstream GET was issued. -/
structure ListModelsResult where
  models : List ModelEntry
  cache : ClientCache
  fetched : Bool
deriving DecidableEq, Repr

/-- `CopilotClient.list_models` from `client.py`: serve from the cache
when it is truthy and fresh, otherwise fetch `upstream`, filter out
entries with `model_picker_enabled` false (absent defaults to true),
store the filtered list, and return it. -/
def list_models (st : ClientCache) (now : Nat) (upstream : List ModelEntry) :
    ListModelsResult :=
  if cacheTruthy st.models_cache ∧ now - st.models_cache_time < MODELS_CACHE_TTL then
    { models := st.models_cache.getD [], cache := st, fetched := false }
  else
    let models := upstream.filter (fun m => m.model_picker_enabled.getD true)
    { models := models,
      cache := { models_cache := some models, models_cache_time := now },
      fetched := true }

/- ────────────────────────────────────────────────────────────────────
   storage.py / token.py — credentials, token refresh, persistence
   (claims C2, C5, C6)
   ──────────────────────────────────────────────────────────────────── -/

/-- The `Credentials` dataclass from `storage.py`.  `expires_at` is a
unix timestamp (the float is modelled as a natural number of seconds). -/
structure Credentials where
  github_token : String
  copilot_token : String := ""
  expires_at : Nat := 0
  api_base_url : String := ""
deriving DecidableEq, Repr

/-- `TOKEN_REFRESH_BUFFER` from `config.py` (seconds). -/
def TOKEN_REFRESH_BUFFER : Nat := 60

/-- A parsed 2xx body of the bearer-mint endpoint
(`GET /copilot_internal/v2/token`): `token`, `expires_at`, and the
optional `endpoints.api` field. -/
structure MintBody where
  token : String
  expires_at : Nat
  endpoints_api : Option String
deriving DecidableEq, Repr

/-- The parse performed by `_fetch_copilot_token` in `token.py` on a
2xx body: it reads `data["token"]` and `data["expires_at"]` and returns
only that pair — the `endpoints` object is not read. -/
def fetch_copilot_token_parse (body : MintBody) : String × Nat :=
  (body.token, body.expires_at)

/-- `TokenManager.copilot_token_valid`: a non-empty short-lived token
whose expiry is strictly beyond `now + TOKEN_REFRESH_BUFFER`. -/
def copilot_token_valid (c : Credentials) (now : Nat) : Bool :=
  c.copilot_token != "" && decide (c.expires_at > now + TOKEN_REFRESH_BUFFER)

/-- The refresh write-back of `TokenManager.ensure_copilot_token`: the
in-memory record gets the fetched token and expiry (and nothing else;
`api_base_url` is untouched) and that record is what `storage.save`
persists. -/
def ensure_refresh_writeback (c : Credentials) (body : MintBody) : Credentials :=
  { c with
    copilot_token := (fetch_copilot_token_parse body).1,
    expires_at := (fetch_copilot_token_parse body).2 }

/-- One call of `ensure_copilot_token` with loaded credentials `c` at
time `now`, where a refresh (if any) receives `body`.  Returns the token
handed to the caller, the resulting in-memory record, and whether a
refresh (upstream mint + persist) happened. -/
def ensure_copilot_token_once (c : Credentials) (now : Nat) (body : MintBody) :
    String × Credentials × Bool :=
  if copilot_token_valid c now then (c.copilot_token, c, false)
  else ((fetch_copilot_token_parse body).1, ensure_refresh_writeback c body, true)

/- ── Concurrency model for `ensure_copilot_token` (claim C2) ──────────

`ensure_copilot_token` contains no lock; its only suspension point is
the awaited HTTP exchange inside `_fetch_copilot_token`.  Under the
asyncio execution model each call therefore runs as two atomic
segments:
  - `check`: load the record, test `copilot_token_valid`; when invalid,
    issue the upstream mint request (the task then suspends);
  - `finishFetch`: the HTTP exchange resolves, the write-back and
    persist run, the call returns.
Callers are indistinguishable, so the world tracks how many callers sit
in each segment plus the shared record and a mint counter. -/

/-- One atomic scheduler step of a caller of `ensure_copilot_token`. -/
inductive TMStep where
  | check
  | finishFetch
deriving DecidableEq, Repr

/-- Shared world: the in-memory credential record, the (fixed) clock,
the number of upstream mint exchanges issued so far, and the caller
counts per segment. -/
structure TMWorld where
  creds : Credentials
  now : Nat
  mints : Nat
  nReady : Nat
  nFetching : Nat
  nDone : Nat
deriving DecidableEq, Repr

/-- The fresh record a completing fetch writes back (token and expiry
from the mint body, per `ensure_refresh_writeback`). -/
def tmStep (body : MintBody) (w : TMWorld) : TMStep → TMWorld
  | .check =>
    match w.nReady with
    | 0 => w
    | r + 1 =>
      if copilot_token_valid w.creds w.now then
        { w with nReady := r, nDone := w.nDone + 1 }
      else
        { w with nReady := r, nFetching := w.nFetching + 1, mints := w.mints + 1 }
  | .finishFetch =>
    match w.nFetching with
    | 0 => w
    | f + 1 =>
      { w with
        creds := ensure_refresh_writeback w.creds body,
        nFetching := f,
        nDone := w.nDone + 1 }

/-- Run a schedule of caller steps. -/
def tmRun (body : MintBody) (w : TMWorld) (sched : List TMStep) : TMWorld :=
  sched.foldl (tmStep body) w

/-- Initial world for claim C2: `n` concurrent callers, all before their
validity check, and an expired (empty) short-lived bearer. -/
def tmInit (n : Nat) : TMWorld :=
  { creds := { github_token := "gh" }, now := 1000, mints := 0,
    nReady := n, nFetching := 0, nDone := 0 }

/-- A concrete mint body used in the token-manager runs. -/
def tmBody : MintBody :=
  { token := "copilot-jwt", expires_at := 3000, endpoints_api := none }

/- ── Persistence trace model for `AuthStorage.save` (claim C6) ────────

`save` is modelled by the sequence of filesystem operations it performs,
in order.  `write p c` stands for `p.write_text(json.dumps(asdict(c),
indent=2) + "\n")` — a direct write of the full serialized record to
path `p`. -/

/-- One filesystem operation performed by `AuthStorage`. -/
inductive FsOp where
  | mkdirs (path : String)
  | chmod (path : String) (mode : Nat)
  | write (path : String) (creds : Credentials)
  | rename (src : String) (dst : String)
deriving DecidableEq, Repr

/-- `COPILOTX_DIR` from `config.py` (`Path.home() / ".copilotx"`). -/
def COPILOTX_DIR : String := "~/.copilotx"

/-- `AUTH_FILE` from `config.py` (`COPILOTX_DIR / "auth.json"`). -/
def AUTH_FILE : String := "~/.copilotx/auth.json"

/-- `AuthStorage._ensure_dir`: create the directory, then `chmod 700` on
POSIX (`os.name != "nt"`). -/
def ensure_dir_trace (posix : Bool) : List FsOp :=
  [.mkdirs COPILOTX_DIR] ++ (if posix then [.chmod COPILOTX_DIR 0o700] else [])

/-- `AuthStorage.save`: ensure the directory, write the serialized
record directly to `AUTH_FILE`, then `chmod 600` on POSIX. -/
def save_trace (creds : Credentials) (posix : Bool) : List FsOp :=
  ensure_dir_trace posix ++ [.write AUTH_FILE creds]
    ++ (if posix then [.chmod AUTH_FILE 0o600] else [])

/-- The spec's persistence pattern, in its words: the record is written
to a temporary path distinct from the target and then renamed over the
target, and the target path itself is never written directly. -/
def usesTempRename (trace : List FsOp) (target : String) : Prop :=
  ∃ tmp, tmp ≠ target
    ∧ (∃ c, FsOp.write tmp c ∈ trace)
    ∧ FsOp.rename tmp target ∈ trace
    ∧ ∀ c, FsOp.write target c ∉ trace

/-- The mode set on `path` by the last `chmod` of the trace touching it,
if any. -/
def lastChmodMode (trace : List FsOp) (path : String) : Option Nat :=
  trace.foldl
    (fun acc op =>
      match op with
      | .chmod p m => if p = path then some m else acc
      | _ => acc)
    none

/- ────────────────────────────────────────────────────────────────────
   translator.py — openai_to_anthropic_response  (claim C1)
   ──────────────────────────────────────────────────────────────────── -/

/-- `tc["function"]` of an OpenAI tool call: possibly-missing `name` and
`arguments` fields.  `arguments` is a raw JSON text (default `"{}"`). -/
structure RespFunc where
  name : Option String
  arguments : Option String
deriving DecidableEq, Repr

/-- One entry of `message.tool_calls`. -/
structure RespToolCall where
  id : Option String
  function : Option RespFunc
deriving DecidableEq, Repr

/-- `choices[i].message`.  `content = none` covers both a missing key
and an explicit JSON null (both falsy in the source). -/
structure RespMessage where
  content : Option String
  tool_calls : Option (List RespToolCall)
deriving DecidableEq, Repr

/-- One element of `choices`. -/
structure RespChoice where
  message : Option RespMessage
  finish_reason : Option String
deriving DecidableEq, Repr

/-- `usage` of an OpenAI chat completion. -/
structure RespUsage where
  prompt_tokens : Option Nat
  completion_tokens : Option Nat
deriving DecidableEq, Repr

/-- An OpenAI chat-completion response body.  `choices = none` models a
missing `choices` key (the source substitutes `[{}]`); `choices = some
[]` models a present-but-empty array (indexing it raises). -/
structure OpenAIResp where
  choices : Option (List RespChoice)
  usage : Option RespUsage
deriving DecidableEq, Repr

/-- An Anthropic content block of the translated response.  `inputRaw`
carries the tool call's raw `arguments` text (default `"{}"`); the
source stores `json.loads` of it (or `{}` when undecodable) — the
decode step is kept abstract because every claim here quantifies over
block structure and identifiers, not parsed argument values. -/
inductive AContentBlock where
  | text (t : String)
  | tool_use (id : String) (name : String) (inputRaw : String)
deriving DecidableEq, Repr

/-- The translated Anthropic response (constant `type`/`role`/
`stop_sequence` fields omitted). -/
structure AnthropicResp where
  id : String
  model : String
  content : List AContentBlock
  stop_reason : String
  input_tokens : Nat
  output_tokens : Nat
deriving DecidableEq, Repr

/-- The `stop_reason_map` lookup with default `"end_turn"`. -/
def stop_reason_of_finish : Option String → String
  | some "stop" => "end_turn"
  | some "length" => "max_tokens"
  | some "content_filter" => "end_turn"
  | some "tool_calls" => "tool_use"
  | _ => "end_turn"

/-- The text block produced from `message.content` (only a non-empty
string yields one). -/
def textBlocksOf (content : Option String) : List AContentBlock :=
  match content with
  | some s => if s ≠ "" then [AContentBlock.text s] else []
  | none => []

/-- The `tool_use` blocks produced from `message.tool_calls`; `uuid k`
is the generated fallback id for the k-th call when its `id` is
missing. -/
def toolBlocksOf (uuid : Nat → String) (tool_calls : Option (List RespToolCall)) :
    List AContentBlock :=
  (tool_calls.getD []).enum.map (fun p =>
    let func := p.2.function.getD { name := none, arguments := none }
    AContentBlock.tool_use (p.2.id.getD (uuid p.1)) (func.name.getD "")
      (func.arguments.getD "\x7b\x7d"))

/-- `openai_to_anthropic_response` from `translator.py`.  It reads
exactly `choices[0]` (`openai_resp.get("choices", [{}])[0]`); `none` is
returned when `choices` is present but empty (the source would raise
IndexError there).  `uuid` supplies generated tool-use ids and `msgId`
the generated message id. -/
def openai_to_anthropic_response (uuid : Nat → String) (msgId : String)
    (resp : OpenAIResp) (model : String) : Option AnthropicResp := do
  let choice ← (resp.choices.getD [{ message := none, finish_reason := none }]).head?
  let message := choice.message.getD { content := none, tool_calls := none }
  let blocks := textBlocksOf message.content ++ toolBlocksOf uuid message.tool_calls
  let content_blocks := if blocks = [] then [AContentBlock.text ""] else blocks
  let usage := resp.usage.getD { prompt_tokens := none, completion_tokens := none }
  some { id := "msg_" ++ msgId,
         model := model,
         content := content_blocks,
         stop_reason := stop_reason_of_finish choice.finish_reason,
         input_tokens := usage.prompt_tokens.getD 0,
         output_tokens := usage.completion_tokens.getD 0 }

/-- The content merge exactly as claim C1 words it: one text block per
non-empty `message.content` of **every** choice in encounter order,
then one `tool_use` block per tool call of **every** choice, with one
empty text block when nothing was produced. -/
def spec_merged_content_C1 (uuid : Nat → String) (choices : List RespChoice) :
    List AContentBlock :=
  let texts := choices.flatMap (fun c =>
    textBlocksOf ((c.message.getD { content := none, tool_calls := none }).content))
  let tools := toolBlocksOf uuid
    (some (choices.flatMap (fun c =>
      ((c.message.getD { content := none, tool_calls := none }).tool_calls.getD []))))
  if texts ++ tools = [] then [AContentBlock.text ""] else texts ++ tools

/- ────────────────────────────────────────────────────────────────────
   translator.py — anthropic_to_openai_request message loop  (claim C7)
   ──────────────────────────────────────────────────────────────────── -/

/-- One element of an Anthropic `tool_result.content` list: a bare
string, a text block, or some other block type (skipped). -/
inductive TRBlock where
  | strB (s : String)
  | textB (t : String)
  | otherB
deriving DecidableEq, Repr

/-- The `content` of a `tool_result` block: a string, a list of blocks,
or any other JSON value (the source stores `json.dumps` of it, carried
here as `dumped`). -/
inductive ToolResultContent where
  | ofString (s : String)
  | ofBlocks (blocks : List TRBlock)
  | otherJson (dumped : String)
deriving DecidableEq, Repr

/-- A `tool_use` content block.  `inputJson` carries
`json.dumps(tu.get("input", {}))` as text (the claims only compare
identifiers, not parsed arguments). -/
structure ToolUseB where
  id : Option String
  name : String
  inputJson : String
deriving DecidableEq, Repr

/-- A `tool_result` content block. -/
structure ToolResultB where
  tool_use_id : Option String
  content : Option ToolResultContent
  is_error : Bool
deriving DecidableEq, Repr

/-- One entry of an Anthropic message's content-block list. -/
inductive ABlock where
  | strB (s : String)
  | textB (t : String)
  | imageB64 (media_type : String) (data : String)
  | imageUrl (url : String)
  | imageOther
  | toolUse (tu : ToolUseB)
  | toolResult (tr : ToolResultB)
  | otherBlock
deriving DecidableEq, Repr

/-- An Anthropic message's `content` value: string, block list, or any
other JSON value (the source falls back to `str(content) if content
else ""`; `truthy` is its Python truthiness and `shown` its `str`). -/
inductive AMsgContent where
  | ofString (s : String)
  | ofBlocks (blocks : List ABlock)
  | otherVal (truthy : Bool) (shown : String)
deriving DecidableEq, Repr

/-- An Anthropic request message. -/
structure AMsg where
  role : String
  content : Option AMsgContent
deriving DecidableEq, Repr

/-- An OpenAI content part (text or image_url). -/
inductive OPart where
  | textPart (t : String)
  | imagePart (url : String)
deriving DecidableEq, Repr

/-- An OpenAI message `content` value. -/
inductive OContentVal where
  | ofString (s : String)
  | ofParts (parts : List OPart)
deriving DecidableEq, Repr

/-- An OpenAI `tool_calls` entry (type `"function"` implicit);
`argumentsJson` is `json.dumps(tu.get("input", {}))` as text. -/
structure OToolCallOut where
  id : String
  name : String
  argumentsJson : String
deriving DecidableEq, Repr

/-- An outgoing OpenAI chat message. -/
inductive OOutMsg where
  | plain (role : String) (content : OContentVal)
  | assistantTools (content : Option String) (tool_calls : List OToolCallOut)
  | toolMsg (tool_call_id : String) (content : String)
deriving DecidableEq, Repr

/-- The four accumulators of the block-classification loop of
`anthropic_to_openai_request`. -/
structure BlockSplit where
  text_parts : List OPart
  tool_use_blocks : List ToolUseB
  tool_result_blocks : List ToolResultB
  has_non_text : Bool
deriving DecidableEq, Repr

/-- The block-classification loop: text and image blocks land in
`text_parts` (images set `has_non_text`), `tool_use` and `tool_result`
blocks are collected separately, everything else is skipped. -/
def splitBlocks : List ABlock → BlockSplit
  | [] => { text_parts := [], tool_use_blocks := [],
            tool_result_blocks := [], has_non_text := false }
  | b :: rest =>
    let s := splitBlocks rest
    match b with
    | .strB x => { s with text_parts := .textPart x :: s.text_parts }
    | .textB t => { s with text_parts := .textPart t :: s.text_parts }
    | .imageB64 m d =>
      { s with text_parts := .imagePart ("data:" ++ m ++ ";base64," ++ d) :: s.text_parts,
               has_non_text := true }
    | .imageUrl u =>
      { s with text_parts := .imagePart u :: s.text_parts, has_non_text := true }
    | .imageOther => s
    | .toolUse tu => { s with tool_use_blocks := tu :: s.tool_use_blocks }
    | .toolResult tr => { s with tool_result_blocks := tr :: s.tool_result_blocks }
    | .otherBlock => s

/-- The text strings among the collected parts (`p["text"] for p in
text_parts if p.get("type") == "text"`). -/
def textsOf (parts : List OPart) : List String :=
  parts.filterMap (fun p => match p with | .textPart t => some t | _ => none)

/-- `"\n".join` of the text parts. -/
def joinedText (parts : List OPart) : String :=
  String.intercalate "\n" (textsOf parts)

/-- Flattening of a `tool_result`'s content to the string sent in the
`role:"tool"` message. -/
def toolResultText : Option ToolResultContent → String
  | none => ""
  | some (.ofString s) => s
  | some (.ofBlocks bs) =>
    String.intercalate "\n" (bs.filterMap (fun b => match b with
      | .strB s => some s
      | .textB t => some t
      | .otherB => none))
  | some (.otherJson d) => d

/-- The loop body of `anthropic_to_openai_request` for one Anthropic
message: assistant messages with `tool_use` blocks become one assistant
message with `tool_calls`; messages with `tool_result` blocks become an
optional content message plus one `role:"tool"` message per result;
everything else becomes one plain message.  `uuid k` supplies the
generated `call_...` fallback id for the k-th tool_use without an id. -/
def convert_msg (uuid : Nat → String) (msg : AMsg) : List OOutMsg :=
  match msg.content with
  | none => [.plain msg.role (.ofString "")]
  | some (.ofString s) => [.plain msg.role (.ofString s)]
  | some (.otherVal truthy shown) =>
    [.plain msg.role (.ofString (if truthy then shown else ""))]
  | some (.ofBlocks blocks) =>
    let s := splitBlocks blocks
    if msg.role = "assistant" ∧ s.tool_use_blocks ≠ [] then
      [.assistantTools
        (if s.text_parts ≠ [] then
          (if joinedText s.text_parts ≠ "" then some (joinedText s.text_parts) else none)
         else none)
        (s.tool_use_blocks.enum.map (fun p =>
          { id := p.2.id.getD (uuid p.1), name := p.2.name,
            argumentsJson := p.2.inputJson }))]
    else if s.tool_result_blocks ≠ [] then
      (if s.text_parts ≠ [] then
        (if s.has_non_text ∨ s.text_parts.length > 1 then
          [OOutMsg.plain msg.role (.ofParts s.text_parts)]
         else
          (if joinedText s.text_parts ≠ "" then
            [OOutMsg.plain msg.role (.ofString (joinedText s.text_parts))]
           else []))
       else [])
      ++ s.tool_result_blocks.map (fun tr =>
          OOutMsg.toolMsg (tr.tool_use_id.getD "")
            (if tr.is_error then "[ERROR] " ++ toolResultText tr.content
             else toolResultText tr.content))
    else
      if s.has_non_text ∨ s.text_parts.length > 1 then
        [OOutMsg.plain msg.role (.ofParts s.text_parts)]
      else
        [OOutMsg.plain msg.role (.ofString (joinedText s.text_parts))]

/-- The `system` field of an Anthropic request. -/
inductive SystemVal where
  | ofString (s : String)
  | ofBlocks (blocks : List ABlock)
deriving DecidableEq, Repr

/-- The system-message prefix built by `anthropic_to_openai_request`
(an empty string or empty list is falsy and yields nothing). -/
def system_msgs : Option SystemVal → List OOutMsg
  | none => []
  | some (.ofString s) =>
    if s ≠ "" then [.plain "system" (.ofString s)] else []
  | some (.ofBlocks bs) =>
    if bs ≠ [] then
      (let ts := bs.filterMap (fun b => match b with
        | ABlock.textB t => some t
        | _ => none)
       if ts ≠ [] then
         [OOutMsg.plain "system" (.ofString (String.intercalate "\n" ts))]
       else [])
    else []

/-- The full message list of the translated OpenAI request: the system
prefix followed by the converted conversation messages in order (the
remaining request fields — model, max_tokens, temperature, top_p, stop,
stream, tools, tool_choice — do not interact with the message loop). -/
def anthropic_to_openai_messages (uuid : Nat → String) (system : Option SystemVal)
    (msgs : List AMsg) : List OOutMsg :=
  system_msgs system ++ msgs.flatMap (convert_msg uuid)

/- ────────────────────────────────────────────────────────────────────
   responses_stream.py — ResponsesStreamIdTracker / fix_responses_stream
   (claim C8)
   ──────────────────────────────────────────────────────────────────── -/

/-- The fields of one parsed `data:` payload that the id tracker reads
or writes: the JSON `type`, `output_index`, `item.id` (none covers a
missing `item` or missing `id`), and the top-level `item_id`.  All
other fields pass through untouched. -/
structure RPayload where
  ptype : Option String
  output_index : Option Nat
  item_id : Option String
  top_item_id : Option String
deriving DecidableEq, Repr

/-- One SSE line of a Responses stream: a non-`data:` line (passed
through), the `[DONE]` marker, a `data:` line whose payload does not
parse as JSON (passed through), or a parsed payload. -/
inductive RLine where
  | nonData (s : String)
  | doneMarker
  | badJson (s : String)
  | payload (p : RPayload)
deriving DecidableEq, Repr

/-- The event types `_extract_event_type` recognizes. -/
def KNOWN_EVENT_TYPES : List String :=
  ["response.output_item.added",
   "response.output_item.done",
   "response.output_text.delta",
   "response.output_text.done",
   "response.function_call_arguments.delta",
   "response.function_call_arguments.done",
   "response.reasoning_summary_text.delta",
   "response.reasoning_summary_text.done",
   "response.created",
   "response.completed",
   "response.incomplete",
   "response.failed",
   "error"]

/-- `_extract_event_type`: the payload's type when it is one of the
known patterns, else none.  (The source scans the raw text for
`"type":"..."`; on well-formed compact JSON that is the type field.) -/
def extract_event_type (ptype : Option String) : Option String :=
  match ptype with
  | some t => if KNOWN_EVENT_TYPES.contains t then some t else none
  | none => none

/-- The mutable fields of `ResponsesStreamIdTracker`.  `output_items`
is the `output_index → item_id` dict, newest binding first (Python dict
update is modelled by prepending, `List.lookup` finds the newest). -/
structure TrackerState where
  output_items : List (Nat × String)
  id_counter : Nat
deriving DecidableEq, Repr

/-- Python truthiness of an optional string (`None` and `""` falsy). -/
def truthyStr : Option String → Bool
  | some s => s != ""
  | none => false

/-- Lower-case hex digits of `n` (as produced by Python's `x` format). -/
def hexChars (n : Nat) : List Char := Nat.toDigits 16 n

/-- Zero-padding to width 4 (Python's `04x` format). -/
def pad4 (cs : List Char) : List Char := List.replicate (4 - cs.length) '0' ++ cs

/-- `ResponsesStreamIdTracker._generate_id`: bump the counter, read the
clock (microseconds, supplied by `ts` per counter value), and build
`oi_<output_index>_<microseconds-hex><counter-hex>`. -/
def generate_id (ts : Nat → Nat) (st : TrackerState) (output_index : Nat) :
    String × TrackerState :=
  let counter := st.id_counter + 1
  ("oi_" ++ toString output_index ++ "_"
     ++ String.mk (hexChars (ts counter)) ++ String.mk (pad4 (hexChars counter)),
   { st with id_counter := counter })

/-- `_handle_added`: record the item id for the payload's
`output_index`, minting one when the upstream id is missing or empty. -/
def handle_added (ts : Nat → Nat) (st : TrackerState) (p : RPayload) :
    RPayload × TrackerState :=
  match p.output_index with
  | none => (p, st)
  | some idx =>
    if truthyStr p.item_id then
      (p, { st with output_items := (idx, p.item_id.getD "") :: st.output_items })
    else
      let r := generate_id ts st idx
      ({ p with item_id := some r.1 },
       { r.2 with output_items := (idx, r.1) :: r.2.output_items })

/-- `_handle_done`: replace the done event's `item.id` with the
recorded id of its `output_index`, when one was recorded (and truthy). -/
def handle_done (st : TrackerState) (p : RPayload) : RPayload × TrackerState :=
  match p.output_index with
  | none => (p, st)
  | some idx =>
    match st.output_items.lookup idx with
    | some oid => if oid ≠ "" then ({ p with item_id := some oid }, st) else (p, st)
    | none => (p, st)

/-- `_handle_other`: set the top-level `item_id` to the recorded id of
the payload's `output_index`, when present and recorded. -/
def handle_other (st : TrackerState) (p : RPayload) : RPayload × TrackerState :=
  match p.output_index with
  | none => (p, st)
  | some idx =>
    match st.output_items.lookup idx with
    | some oid => if oid ≠ "" then ({ p with top_item_id := some oid }, st) else (p, st)
    | none => (p, st)

/-- `ResponsesStreamIdTracker.fix_stream_data`: dispatch on the
extracted event type. -/
def fix_stream_data (ts : Nat → Nat) (st : TrackerState) (p : RPayload) :
    RPayload × TrackerState :=
  if extract_event_type p.ptype = some "response.output_item.added" then
    handle_added ts st p
  else if extract_event_type p.ptype = some "response.output_item.done" then
    handle_done st p
  else
    handle_other st p

/-- One line of `fix_responses_stream`: non-data lines, `[DONE]`, and
undecodable payloads pass through; parsed payloads go through the
tracker. -/
def fix_line (ts : Nat → Nat) (st : TrackerState) : RLine → RLine × TrackerState
  | .nonData s => (.nonData s, st)
  | .doneMarker => (.doneMarker, st)
  | .badJson s => (.badJson s, st)
  | .payload p =>
    let r := fix_stream_data ts st p
    (.payload r.1, r.2)

/-- The whole rewritten stream with the final tracker state. -/
def fix_responses_run (ts : Nat → Nat) (st : TrackerState) :
    List RLine → List RLine × TrackerState
  | [] => ([], st)
  | l :: rest =>
    let r := fix_line ts st l
    let r2 := fix_responses_run ts r.2 rest
    (r.1 :: r2.1, r2.2)

/-- `fix_responses_stream`: run the tracker from its fresh state. -/
def fix_responses_stream (ts : Nat → Nat) (lines : List RLine) : List RLine :=
  (fix_responses_run ts { output_items := [], id_counter := 0 } lines).1

/-- `l` is an `output_item.added` event for `output_index = i`. -/
def isAddedFor (i : Nat) : RLine → Bool
  | .payload p =>
    extract_event_type p.ptype == some "response.output_item.added"
      && p.output_index == some i
  | _ => false

/-- `l` is an `output_item.done` event for `output_index = i`. -/
def isDoneFor (i : Nat) : RLine → Bool
  | .payload p =>
    extract_event_type p.ptype == some "response.output_item.done"
      && p.output_index == some i
  | _ => false

/-- `l` is a payload bearing `output_index = i` that is neither the
`added` nor the `done` event (an intermediate event for that index). -/
def isOtherFor (i : Nat) : RLine → Bool
  | .payload p =>
    p.output_index == some i
      && !(extract_event_type p.ptype == some "response.output_item.added")
      && !(extract_event_type p.ptype == some "response.output_item.done")
  | _ => false

/-- Any payload bearing `output_index = i`. -/
def bearsIdx (i : Nat) : RLine → Bool
  | .payload p => p.output_index == some i
  | _ => false

/- ────────────────────────────────────────────────────────────────────
   translator.py — openai_stream_to_anthropic_stream  (claims C3, C4)
   ──────────────────────────────────────────────────────────────────── -/

/-- One entry of `delta.tool_calls`: the tool-call index
(`tc_delta.get("index", 0)`, default applied at parse), the optional
`id` and `function.name` fragments, and the `function.arguments`
fragment (default `""`). -/
structure TCDelta where
  index : Nat
  id : Option String
  name : Option String
  arguments : String
deriving DecidableEq, Repr

/-- `choices[0]` of one streaming chunk: `finish_reason`,
`delta.content`, and `delta.tool_calls` (each possibly absent/null). -/
structure ChunkChoice where
  finish_reason : Option String
  content : Option String
  tool_calls : Option (List TCDelta)
deriving DecidableEq, Repr

/-- The `usage` object of a chunk. -/
structure ChunkUsage where
  prompt_tokens : Option Nat
  completion_tokens : Option Nat
deriving DecidableEq, Repr

/-- One parsed OpenAI streaming chunk.  `choices = none` models a
missing `choices` key (the source substitutes `[{}]`); `some []` models
a present-but-empty array, whose indexing raises and aborts the
generator.  Raw lines that are empty, not `data:`, or undecodable JSON
are skipped by the source and therefore absent from this list; the
`[DONE]` marker is the end of the list. -/
structure Chunk where
  choices : Option (List ChunkChoice)
  usage : Option ChunkUsage
deriving DecidableEq, Repr

/-- One Anthropic SSE event emitted by the streaming translator
(payload fields beyond the claims' concern are omitted from
`message_start`/`message_stop`). -/
inductive AnthEvent where
  | message_start
  | content_block_start_text (index : Nat)
  | content_block_start_tool (index : Nat) (id : String) (name : String)
  | content_block_delta_text (index : Nat) (text : String)
  | content_block_delta_json (index : Nat) (partJson : String)
  | content_block_stop (index : Nat)
  | message_delta (stop_reason : String) (output_tokens : Nat)
  | message_stop
deriving DecidableEq, Repr

/-- One entry of `tool_call_trackers`. -/
structure ToolTracker where
  id : String
  name : String
  block_index : Nat
  started : Bool
  text_closed : Bool
deriving DecidableEq, Repr

/-- The local state of `openai_stream_to_anthropic_stream`.
`trackers` is the `tool_call_trackers` dict in insertion order (keys
are tool-call indices, unique by construction). -/
structure StreamState where
  sent_start : Bool
  sent_text_block_start : Bool
  trackers : List (Nat × ToolTracker)
  next_block_index : Nat
  text_block_index : Nat
  has_text : Bool
  finish_reason : String
  input_tokens : Nat
  output_tokens : Nat
deriving DecidableEq, Repr

/-- The generator's initial state. -/
def initStreamState : StreamState :=
  { sent_start := false, sent_text_block_start := false, trackers := [],
    next_block_index := 0, text_block_index := 0, has_text := false,
    finish_reason := "end_turn", input_tokens := 0, output_tokens := 0 }

/-- Dict update in place (`tracker["id"] = ...` on the stored entry). -/
def trkUpdate (l : List (Nat × ToolTracker)) (k : Nat) (t : ToolTracker) :
    List (Nat × ToolTracker) :=
  l.map (fun kv => if kv.1 = k then (k, t) else kv)

/-- Python `a or b` on an optional string (`None` and `""` falsy). -/
def pyOr (a : Option String) (b : String) : String :=
  match a with
  | some s => if s ≠ "" then s else b
  | none => b

/-- Insertion step of sorting the trackers by key. -/
def insertSorted (kv : Nat × ToolTracker) :
    List (Nat × ToolTracker) → List (Nat × ToolTracker)
  | [] => [kv]
  | x :: xs => if kv.1 ≤ x.1 then kv :: x :: xs else x :: insertSorted kv xs

/-- `sorted(tool_call_trackers.items())` (sort by tool-call index). -/
def sortByKey (l : List (Nat × ToolTracker)) : List (Nat × ToolTracker) :=
  l.foldr insertSorted []

/-- The body of the `for tc_delta in tool_calls` loop: the events it
yields and the state it leaves.  A first-seen tool-call index closes
the text block when it is open and no tracker exists yet, then opens a
new tool block (id/name falling back to `uuid block_idx` resp. `""`);
a known index fills in missing id/name.  A non-empty `arguments`
fragment yields an `input_json_delta` on the tracked block. -/
def processToolDelta (uuid : Nat → String) (st : StreamState) (tc : TCDelta) :
    List AnthEvent × StreamState :=
  match st.trackers.lookup tc.index with
  | none =>
    let closeEvents :=
      if st.sent_text_block_start
          && !(st.trackers.any (fun kv => kv.2.text_closed))
          && st.trackers.isEmpty then
        [AnthEvent.content_block_stop st.text_block_index]
      else []
    let block_idx := st.next_block_index
    let tool_id := pyOr tc.id (uuid block_idx)
    let tool_name := pyOr tc.name ""
    let tracker : ToolTracker :=
      { id := tool_id, name := tool_name, block_index := block_idx,
        started := true, text_closed := true }
    (closeEvents
       ++ [AnthEvent.content_block_start_tool block_idx tool_id tool_name]
       ++ (if tc.arguments ≠ "" then
            [AnthEvent.content_block_delta_json block_idx tc.arguments]
           else []),
     { st with trackers := st.trackers ++ [(tc.index, tracker)],
               next_block_index := block_idx + 1 })
  | some tracker =>
    let newId := if truthyStr tc.id && (tracker.id == "") then tc.id.getD ""
                 else tracker.id
    let newName := if truthyStr tc.name && (tracker.name == "") then tc.name.getD ""
                   else tracker.name
    let tracker2 : ToolTracker := { tracker with id := newId, name := newName }
    ((if tc.arguments ≠ "" then
        [AnthEvent.content_block_delta_json tracker2.block_index tc.arguments]
      else []),
     { st with trackers := trkUpdate st.trackers tc.index tracker2 })

/-- The `finish_reason` tracking of one chunk (`if chunk_finish:` with
the `tool_calls`/`length`/default mapping). -/
def chunkFinishState (st : StreamState) (choice : ChunkChoice) : StreamState :=
  if truthyStr choice.finish_reason then
    { st with finish_reason :=
        match choice.finish_reason.getD "" with
        | "tool_calls" => "tool_use"
        | "length" => "max_tokens"
        | _ => "end_turn" }
  else st

/-- The text-content handling of one chunk: on the first content a text
block is opened at `next_block_index`; afterwards only deltas are
emitted. -/
def chunkTextPhase (st : StreamState) (choice : ChunkChoice) :
    List AnthEvent × StreamState :=
  if truthyStr choice.content then
    if st.sent_text_block_start = false then
      ([AnthEvent.content_block_start_text st.next_block_index,
        AnthEvent.content_block_delta_text st.next_block_index
          (choice.content.getD "")],
       { st with text_block_index := st.next_block_index,
                 next_block_index := st.next_block_index + 1,
                 sent_text_block_start := true, has_text := true })
    else
      ([AnthEvent.content_block_delta_text st.text_block_index
          (choice.content.getD "")],
       { st with has_text := true })
  else ([], st)

/-- The `for tc_delta in tool_calls` loop of one chunk. -/
def chunkToolPhase (uuid : Nat → String) (st : StreamState) (choice : ChunkChoice) :
    List AnthEvent × StreamState :=
  match choice.tool_calls with
  | some tcs =>
    tcs.foldl
      (fun (acc : List AnthEvent × StreamState) tc =>
        let r := processToolDelta uuid acc.2 tc
        (acc.1 ++ r.1, r.2))
      ([], st)
  | none => ([], st)

/-- The usage absorption of one chunk (`if "usage" in chunk:`). -/
def chunkUsageState (st : StreamState) (ck : Chunk) : StreamState :=
  match ck.usage with
  | some u =>
    { st with input_tokens := u.prompt_tokens.getD st.input_tokens,
              output_tokens := u.completion_tokens.getD st.output_tokens }
  | none => st

/-- Processing of one parsed chunk: emit `message_start` once, then
read `choices[0]` (a present-but-empty array raises: the state comes
back `none` and the generator dies), track `finish_reason`, handle text
content, run the tool-call loop, and absorb `usage`. -/
def processChunk (uuid : Nat → String) (st : StreamState) (ck : Chunk) :
    List AnthEvent × Option StreamState :=
  let startEvents :=
    if st.sent_start = false then [AnthEvent.message_start] else []
  let st1 := { st with sent_start := true }
  match (ck.choices.getD
      [{ finish_reason := none, content := none, tool_calls := none }]).head? with
  | none => (startEvents, none)
  | some choice =>
    let tr := chunkTextPhase (chunkFinishState st1 choice) choice
    let tl := chunkToolPhase uuid tr.2 choice
    (startEvents ++ tr.1 ++ tl.1, some (chunkUsageState tl.2 ck))

/-- The per-chunk phase of the generator: events emitted while the
upstream stream is being consumed, and the final state (`none` when a
chunk raised). -/
def runChunks (uuid : Nat → String) (st : StreamState) :
    List Chunk → List AnthEvent × Option StreamState
  | [] => ([], some st)
  | ck :: rest =>
    match processChunk uuid st ck with
    | (evs, none) => (evs, none)
    | (evs, some st2) =>
      let r := runChunks uuid st2 rest
      (evs ++ r.1, r.2)

/-- The finalize phase after the upstream stream is exhausted: the text
block's stop when it was opened and no tracker exists, the tool-block
stops in ascending tool-call-index order, then `message_delta` and
`message_stop`. -/
def finalizeEvents (st : StreamState) : List AnthEvent :=
  (if st.sent_text_block_start = true ∧ st.trackers = [] then
     [AnthEvent.content_block_stop st.text_block_index]
   else [])
  ++ (sortByKey st.trackers).map
      (fun kv => AnthEvent.content_block_stop kv.2.block_index)
  ++ [AnthEvent.message_delta st.finish_reason st.output_tokens,
      AnthEvent.message_stop]

/-- `openai_stream_to_anthropic_stream` over a parsed chunk list: the
per-chunk events followed by the finalize events (absent when the
generator raised mid-stream). -/
def openai_stream_to_anthropic_stream (uuid : Nat → String)
    (chunks : List Chunk) : List AnthEvent :=
  match runChunks uuid initStreamState chunks with
  | (evs, some st) => evs ++ finalizeEvents st
  | (evs, none) => evs

/- ────────────────────────────────────────────────────────────────────
   Concrete inputs used by individual claims
   ──────────────────────────────────────────────────────────────────── -/

/-- The split-choices upstream body from the repository's own test
`test_copilot_split_choices`: text in `choices[0]`, the tool call in
`choices[1]`.  (Used by claim C1.) -/
def c1_resp : OpenAIResp :=
  { choices := some [
      { message := some { content := some "I'll use the calculator tool to compute 25*17.",
                          tool_calls := none },
        finish_reason := some "tool_calls" },
      { message := some { content := none,
                          tool_calls := some [
                            { id := some "tooluse_8bjtwWDo",
                              function := some { name := some "calculator",
                                                 arguments := some "\x7b\"expr\":\"25*17\"\x7d" } }] },
        finish_reason := some "tool_calls" }],
    usage := some { prompt_tokens := some 378, completion_tokens := some 67 } }

/-- The starting credential record for the claim C5 run: authenticated,
expired short-lived bearer, no stored base URL. -/
def c5_creds0 : Credentials := { github_token := "gh" }

/-- A 2xx mint body whose `endpoints.api` names a non-default base URL.
(Used by claim C5.) -/
def c5_body : MintBody :=
  { token := "tok2", expires_at := 1700001800,
    endpoints_api := some "https://api.enterprise.githubcopilot.com" }

/-- A concrete stored record for the claim C6 counterexample. -/
def c6_creds : Credentials :=
  { github_token := "gh", copilot_token := "jwt", expires_at := 42 }

/-- The tool-use block of the repository test
`test_tool_use_message_conversion` (claim C7's witness). -/
def c7_tool_use : ToolUseB :=
  { id := some "toolu_abc123", name := "read_file",
    inputJson := "\x7b\"path\": \"/tmp/test.txt\"\x7d" }

/-- The content blocks of the assistant turn in that test. -/
def c7_assistant_blocks : List ABlock :=
  [.textB "I'll read that file for you.", .toolUse c7_tool_use]

/-- The content blocks of the tool-result user turn in that test. -/
def c7_result_blocks : List ABlock :=
  [.toolResult { tool_use_id := some "toolu_abc123",
                 content := some (.ofString "File content: Hello World"),
                 is_error := false }]

/-- The three-message conversation of that test. -/
def c7_msgs : List AMsg :=
  [{ role := "user", content := some (.ofString "Read /tmp/test.txt") },
   { role := "assistant", content := some (.ofBlocks c7_assistant_blocks) },
   { role := "user", content := some (.ofBlocks c7_result_blocks) }]

/-- A fixed clock for claim C8's runs: 26 microseconds (hex `1a`). -/
def c8_ts : Nat → Nat := fun _ => 26

/-- An intermediate delta event arriving before the `added` event of its
`output_index`, carrying a stale upstream `item_id`. -/
def c8_pre_delta : RPayload :=
  { ptype := some "response.output_text.delta", output_index := some 0,
    item_id := none, top_item_id := some "stale" }

/-- An `added` event without an upstream item id (one gets minted). -/
def c8_added : RPayload :=
  { ptype := some "response.output_item.added", output_index := some 0,
    item_id := none, top_item_id := none }

/-- A `done` event whose upstream id differs from the `added` one. -/
def c8_done : RPayload :=
  { ptype := some "response.output_item.done", output_index := some 0,
    item_id := some "different", top_item_id := none }

/-- A stream in which an intermediate event precedes its `added` event
(used by claim C8's counterexample). -/
def c8_input : List RLine :=
  [.payload c8_pre_delta, .payload c8_added, .payload c8_done]

/-- A fixed uuid supply for the streaming runs. -/
def uuid0 : Nat → String := fun _ => "toolu_gen"

/-- A streaming chunk carrying only text content. -/
def ck_text : Chunk :=
  { choices := some [{ finish_reason := none, content := some "hi",
                       tool_calls := none }],
    usage := none }

/-- A streaming chunk starting one tool call with complete arguments. -/
def ck_tool : Chunk :=
  { choices := some [{ finish_reason := some "tool_calls", content := none,
                       tool_calls := some [{ index := 0, id := some "tc1",
                                             name := some "calc",
                                             arguments := "\x7b\x7d" }] }],
    usage := none }

end CopilotX

namespace CopilotX

/- ────────────────────────────────────────────────────────────────────
   Theorems for claims C9 and C10
   ──────────────────────────────────────────────────────────────────── -/

/-- **C9** (counterexample).  The claim says every name that misses the
table goes through the fuzzy rule, but the code first passes through any
name containing a dot: on `"sonnet-4.5"` (not in the table) the code
returns the name unchanged while the claim's resolution yields
`"claude-sonnet-4.5"`. -/
theorem c9_counterexample :
    map_anthropic_model_to_copilot "sonnet-4.5" ≠ spec_map_model_C9 "sonnet-4.5" := by
  decide

/-- **C9** (amended).  Model resolution applies the mapping table first;
a name missing from the table that contains a dot is passed through
unchanged (treated as already Copilot-compatible); every other name
missing from the table goes through the fuzzy rule keyed on the
substrings sonnet/opus/haiku with the version hints 4-5/4.5 and 4-6/4.6,
and a name matching none of them is passed through unchanged. -/
theorem c9_amended (m : String) :
    (∀ v, ANTHROPIC_TO_COPILOT_MODEL_MAP.lookup m = some v →
        map_anthropic_model_to_copilot m = v)
    ∧ (ANTHROPIC_TO_COPILOT_MODEL_MAP.lookup m = none → strIn "." m = true →
        map_anthropic_model_to_copilot m = m)
    ∧ (ANTHROPIC_TO_COPILOT_MODEL_MAP.lookup m = none → strIn "." m = false →
        map_anthropic_model_to_copilot m = spec_fuzzy_rule m) := by
  refine ⟨fun v hv => ?_, fun hn hd => ?_, fun hn hd => ?_⟩
  · simp [map_anthropic_model_to_copilot, hv]
  · simp [map_anthropic_model_to_copilot, hn, hd]
  · simp [map_anthropic_model_to_copilot, spec_fuzzy_rule, hn, hd]

/-- **C9** (witness for the amended theorem): the table maps
`claude-3-haiku-20240307` to `claude-haiku-4.5` (spec scenario S1). -/
theorem c9_amended_witness :
    map_anthropic_model_to_copilot "claude-3-haiku-20240307" = "claude-haiku-4.5" :=
  (c9_amended "claude-3-haiku-20240307").1 "claude-haiku-4.5" (by decide)

/-- Unfolding `list_models` on a cache miss (stale or non-truthy cache). -/
theorem list_models_eq_of_miss (st : ClientCache) (now : Nat)
    (upstream : List ModelEntry)
    (h : ¬(cacheTruthy st.models_cache = true
            ∧ now - st.models_cache_time < MODELS_CACHE_TTL)) :
    list_models st now upstream =
      { models := upstream.filter (fun m => m.model_picker_enabled.getD true),
        cache := { models_cache :=
                     some (upstream.filter (fun m => m.model_picker_enabled.getD true)),
                   models_cache_time := now },
        fetched := true } := by
  unfold list_models
  rw [if_neg h]

/-- Unfolding `list_models` on a cache hit. -/
theorem list_models_eq_of_hit (st : ClientCache) (now : Nat)
    (upstream : List ModelEntry)
    (h : cacheTruthy st.models_cache = true
          ∧ now - st.models_cache_time < MODELS_CACHE_TTL) :
    list_models st now upstream =
      { models := st.models_cache.getD [], cache := st, fetched := false } := by
  unfold list_models
  rw [if_pos h]

/-- **C10**.  An empty filtered model list is never treated as a cache
hit: after a call that stored an empty list, every subsequent call
fetches from upstream again (whatever the clock says), while a call that
stored a non-empty list is served from the cache — same list, no fetch —
as long as the TTL has not expired. -/
theorem c10_models_cache (st : ClientCache) (now : Nat) (upstream : List ModelEntry)
    (now2 : Nat) (upstream2 : List ModelEntry) :
    ((list_models st now upstream).fetched = true →
       (list_models st now upstream).models = [] →
       (list_models (list_models st now upstream).cache now2 upstream2).fetched = true)
    ∧ ((list_models st now upstream).fetched = true →
       (list_models st now upstream).models ≠ [] → now2 - now < MODELS_CACHE_TTL →
         (list_models (list_models st now upstream).cache now2 upstream2).fetched = false
           ∧ (list_models (list_models st now upstream).cache now2 upstream2).models
              = (list_models st now upstream).models) := by
  constructor
  · intro hf he
    by_cases hc : cacheTruthy st.models_cache = true
        ∧ now - st.models_cache_time < MODELS_CACHE_TTL
    · rw [list_models_eq_of_hit st now upstream hc] at hf
      exact absurd hf (by simp)
    · rw [list_models_eq_of_miss st now upstream hc] at he ⊢
      simp only at he ⊢
      rw [list_models_eq_of_miss]
      rintro ⟨ht, -⟩
      simp only [he, cacheTruthy, List.isEmpty_nil, Bool.not_true] at ht
      exact Bool.false_ne_true ht
  · intro hf hne hfresh
    by_cases hc : cacheTruthy st.models_cache = true
        ∧ now - st.models_cache_time < MODELS_CACHE_TTL
    · rw [list_models_eq_of_hit st now upstream hc] at hf
      exact absurd hf (by simp)
    · rw [list_models_eq_of_miss st now upstream hc] at hne ⊢
      simp only at hne ⊢
      rw [list_models_eq_of_hit]
      · exact ⟨rfl, rfl⟩
      · refine ⟨?_, hfresh⟩
        simpa [cacheTruthy, List.isEmpty_iff] using hne

/-- **C10** (witness): from an empty cache, a call at time 0 that filters
everything out stores `[]`, and a second call at time 1 (well inside the
TTL) fetches again; with one surviving entry the second call is a cache
hit. -/
theorem c10_models_cache_witness :
    ((list_models { models_cache := none, models_cache_time := 0 } 0
        [{ id := "m", model_picker_enabled := some false }]).fetched = true
      → (list_models { models_cache := none, models_cache_time := 0 } 0
        [{ id := "m", model_picker_enabled := some false }]).models = []
      → (list_models (list_models { models_cache := none, models_cache_time := 0 } 0
            [{ id := "m", model_picker_enabled := some false }]).cache 1 []).fetched = true)
    ∧ (list_models (list_models { models_cache := none, models_cache_time := 0 } 0
        [{ id := "m", model_picker_enabled := some false }]).cache 1 []).fetched = true :=
  ⟨fun h1 h2 => (c10_models_cache { models_cache := none, models_cache_time := 0 } 0
      [{ id := "m", model_picker_enabled := some false }] 1 []).1 h1 h2,
   (c10_models_cache { models_cache := none, models_cache_time := 0 } 0
      [{ id := "m", model_picker_enabled := some false }] 1 []).1 (by decide) (by decide)⟩

/- ────────────────────────────────────────────────────────────────────
   Theorem for claim C1
   ──────────────────────────────────────────────────────────────────── -/

/-- **C1**.  `openai_to_anthropic_response` reads only `choices[0]`:
on the split-choices body of the repository's own test
`test_copilot_split_choices` the produced content keeps just the text
block of choice 0 and silently drops the tool call living in choice 1,
while the claimed merge of every choice (asserted by that test) would
produce the text block followed by the `tool_use` block. -/
theorem c1_split_choices_dropped :
    (openai_to_anthropic_response (fun _ => "gen") "m" c1_resp "claude-sonnet-4").map
        AnthropicResp.content
      = some [AContentBlock.text "I'll use the calculator tool to compute 25*17."]
    ∧ spec_merged_content_C1 (fun _ => "gen") (c1_resp.choices.getD [])
      = [AContentBlock.text "I'll use the calculator tool to compute 25*17.",
         AContentBlock.tool_use "tooluse_8bjtwWDo" "calculator" "\x7b\"expr\":\"25*17\"\x7d"]
    ∧ (openai_to_anthropic_response (fun _ => "gen") "m" c1_resp "claude-sonnet-4").map
        AnthropicResp.content
      ≠ some (spec_merged_content_C1 (fun _ => "gen") (c1_resp.choices.getD [])) := by
  refine ⟨rfl, rfl, by decide⟩

/- ────────────────────────────────────────────────────────────────────
   Theorems for claims C2, C5, C6
   ──────────────────────────────────────────────────────────────────── -/

/-- **C2** (counterexample).  `ensure_copilot_token` takes no lock: two
concurrent callers that both run their validity check before either
fetch resolves both issue an upstream mint.  The run completes both
callers and the mint count is 2, not 1 as the claim requires. -/
theorem c2_counterexample :
    (tmRun tmBody (tmInit 2)
      [TMStep.check, TMStep.check, TMStep.finishFetch, TMStep.finishFetch]).nDone = 2
    ∧ (tmRun tmBody (tmInit 2)
      [TMStep.check, TMStep.check, TMStep.finishFetch, TMStep.finishFetch]).mints ≠ 1 := by
  decide

/-- Running `k` checks against an invalid bearer moves `k` ready callers
into the fetching segment and issues one mint each; the shared record is
untouched by checks. -/
theorem tmRun_checks (body : MintBody) :
    ∀ (k : Nat) (w : TMWorld),
      copilot_token_valid w.creds w.now = false → k ≤ w.nReady →
      tmRun body w (List.replicate k TMStep.check) =
        { creds := w.creds, now := w.now, mints := w.mints + k,
          nReady := w.nReady - k, nFetching := w.nFetching + k, nDone := w.nDone } := by
  intro k
  induction k with
  | zero => intro w _ _; simp [tmRun]
  | succ k ih =>
    intro w hv hk
    obtain ⟨r, hr⟩ : ∃ r, w.nReady = r + 1 := ⟨w.nReady - 1, by omega⟩
    have hstep : tmStep body w TMStep.check =
        { w with nReady := r, nFetching := w.nFetching + 1, mints := w.mints + 1 } := by
      simp only [tmStep, hr, hv, Bool.false_eq_true, if_false]
    rw [List.replicate_succ]
    show tmRun body (tmStep body w TMStep.check) (List.replicate k TMStep.check) = _
    rw [hstep, ih _ (by simpa using hv) (by simp; omega)]
    rw [TMWorld.mk.injEq]
    refine ⟨rfl, rfl, ?_, ?_, ?_, rfl⟩ <;> simp only [] <;> omega

/-- Completing `k` in-flight fetches issues no further mint and finishes
`k` callers. -/
theorem tmRun_fetches (body : MintBody) :
    ∀ (k : Nat) (w : TMWorld), k ≤ w.nFetching →
      (tmRun body w (List.replicate k TMStep.finishFetch)).mints = w.mints
      ∧ (tmRun body w (List.replicate k TMStep.finishFetch)).nDone = w.nDone + k := by
  intro k
  induction k with
  | zero => intro w _; simp [tmRun]
  | succ k ih =>
    intro w hk
    obtain ⟨f, hf⟩ : ∃ f, w.nFetching = f + 1 := ⟨w.nFetching - 1, by omega⟩
    have hstep : tmStep body w TMStep.finishFetch =
        { w with creds := ensure_refresh_writeback w.creds body,
                 nFetching := f, nDone := w.nDone + 1 } := by
      simp only [tmStep, hf]
    rw [List.replicate_succ]
    have hrun : tmRun body w (TMStep.finishFetch :: List.replicate k TMStep.finishFetch)
        = tmRun body (tmStep body w TMStep.finishFetch)
            (List.replicate k TMStep.finishFetch) := rfl
    rw [hrun, hstep]
    have := ih { w with creds := ensure_refresh_writeback w.creds body,
                        nFetching := f, nDone := w.nDone + 1 } (by simp; omega)
    refine ⟨this.1, ?_⟩
    rw [this.2]
    show w.nDone + 1 + k = w.nDone + (k + 1)
    omega

/-- **C2** (amended).  There is no single-flight serialization: every
caller that observes an expired bearer issues its own upstream mint.
With `n` concurrent callers that all check before any refresh resolves,
`n` mints are issued and all `n` callers complete. -/
theorem c2_amended (n : Nat) :
    (tmRun tmBody (tmInit n)
      (List.replicate n TMStep.check ++ List.replicate n TMStep.finishFetch)).mints = n
    ∧ (tmRun tmBody (tmInit n)
      (List.replicate n TMStep.check ++ List.replicate n TMStep.finishFetch)).nDone = n := by
  have hsplit : tmRun tmBody (tmInit n)
      (List.replicate n TMStep.check ++ List.replicate n TMStep.finishFetch)
      = tmRun tmBody (tmRun tmBody (tmInit n) (List.replicate n TMStep.check))
          (List.replicate n TMStep.finishFetch) := by
    simp [tmRun, List.foldl_append]
  have hchecks := tmRun_checks tmBody n (tmInit n) rfl (by simp [tmInit])
  have hfetches := tmRun_fetches tmBody n
      (tmRun tmBody (tmInit n) (List.replicate n TMStep.check))
      (by rw [hchecks]; simp [tmInit])
  rw [hsplit, hfetches.1, hfetches.2, hchecks]
  simp [tmInit]

/-- **C5**.  On a 2xx mint answer the refresh stores the body's `token`
and `expires_at` and persists the record, but `endpoints.api` is never
read: the persisted record's `api_base_url` stays empty instead of
taking the body's `endpoints.api` value, contradicting the claim (and
the `Credentials.api_base_url` field's own documented purpose). -/
theorem c5_endpoints_api_dropped :
    (ensure_copilot_token_once c5_creds0 1700000000 c5_body).2.1.copilot_token = "tok2"
    ∧ (ensure_copilot_token_once c5_creds0 1700000000 c5_body).2.1.expires_at = 1700001800
    ∧ (ensure_copilot_token_once c5_creds0 1700000000 c5_body).2.2 = true
    ∧ c5_body.endpoints_api = some "https://api.enterprise.githubcopilot.com"
    ∧ (ensure_copilot_token_once c5_creds0 1700000000 c5_body).2.1.api_base_url
        ≠ "https://api.enterprise.githubcopilot.com" := by
  decide

/-- **C6** (counterexample).  `AuthStorage.save` performs no
temp-file-then-rename: its trace on POSIX contains no rename at all and
writes the target path directly. -/
theorem c6_counterexample : ¬ usesTempRename (save_trace c6_creds true) AUTH_FILE := by
  rintro ⟨tmp, hne, ⟨c, hw⟩, hr, hnw⟩
  simp [save_trace, ensure_dir_trace] at hr

/-- **C6** (amended).  Every persistence of the credential record writes
the full serialized record directly to the credential file (no
temp-file-then-rename indirection, so an interrupted write can leave a
partially written file), and on POSIX the file mode is then set to 0600;
on Windows no chmod is performed. -/
theorem c6_amended (creds : Credentials) :
    FsOp.write AUTH_FILE creds ∈ save_trace creds true
    ∧ ¬ usesTempRename (save_trace creds true) AUTH_FILE
    ∧ lastChmodMode (save_trace creds true) AUTH_FILE = some 0o600
    ∧ FsOp.write AUTH_FILE creds ∈ save_trace creds false
    ∧ lastChmodMode (save_trace creds false) AUTH_FILE = none := by
  refine ⟨?_, ?_, rfl, ?_, rfl⟩
  · simp [save_trace, ensure_dir_trace]
  · rintro ⟨tmp, hne, ⟨c, hw⟩, hr, hnw⟩
    simp [save_trace, ensure_dir_trace] at hr
  · simp [save_trace, ensure_dir_trace]

/- ────────────────────────────────────────────────────────────────────
   Theorems for claim C7
   ──────────────────────────────────────────────────────────────────── -/

/-- **C7**.  Tool-call id preservation: for every assistant message
whose content blocks contain `tool_use` blocks, the translated request
contains an assistant message whose `tool_calls` ids are, in order,
exactly the `tool_use` ids (with the generated fallback only where the
block carries none); and for every `tool_result` block of a user
message carrying a `tool_use_id`, the translated request contains a
`role:"tool"` message whose `tool_call_id` is that same id. -/
theorem c7_tool_id_preservation (uuid : Nat → String) (system : Option SystemVal)
    (msgs : List AMsg) (msg : AMsg) (hm : msg ∈ msgs) (bs : List ABlock)
    (hc : msg.content = some (AMsgContent.ofBlocks bs)) :
    (msg.role = "assistant" → (splitBlocks bs).tool_use_blocks ≠ [] →
      ∃ cnt tcs, OOutMsg.assistantTools cnt tcs
          ∈ anthropic_to_openai_messages uuid system msgs
        ∧ tcs.map (fun tc => tc.id)
            = (splitBlocks bs).tool_use_blocks.enum.map
                (fun p => p.2.id.getD (uuid p.1)))
    ∧ (∀ tr ∈ (splitBlocks bs).tool_result_blocks, ∀ t, tr.tool_use_id = some t →
        msg.role = "user" →
        ∃ c, OOutMsg.toolMsg t c ∈ anthropic_to_openai_messages uuid system msgs) := by
  constructor
  · intro hrole htools
    refine ⟨(if (splitBlocks bs).text_parts ≠ [] then
              (if joinedText (splitBlocks bs).text_parts ≠ "" then
                 some (joinedText (splitBlocks bs).text_parts) else none)
             else none),
            (splitBlocks bs).tool_use_blocks.enum.map (fun p =>
              ({ id := p.2.id.getD (uuid p.1), name := p.2.name,
                 argumentsJson := p.2.inputJson } : OToolCallOut)), ?_, ?_⟩
    · unfold anthropic_to_openai_messages
      apply List.mem_append_right
      apply List.mem_flatMap.mpr
      refine ⟨msg, hm, ?_⟩
      unfold convert_msg
      rw [hc]
      have hcond : msg.role = "assistant" ∧ (splitBlocks bs).tool_use_blocks ≠ [] :=
        ⟨hrole, htools⟩
      simp only [if_pos hcond, List.mem_singleton]
    · simp [List.map_map]
  · intro tr htr t ht hrole
    refine ⟨(if tr.is_error then "[ERROR] " ++ toolResultText tr.content
             else toolResultText tr.content), ?_⟩
    unfold anthropic_to_openai_messages
    apply List.mem_append_right
    apply List.mem_flatMap.mpr
    refine ⟨msg, hm, ?_⟩
    unfold convert_msg
    rw [hc]
    have hcond1 : ¬(msg.role = "assistant" ∧ (splitBlocks bs).tool_use_blocks ≠ []) := by
      rintro ⟨ha, -⟩
      rw [hrole] at ha
      exact absurd ha (by decide)
    have hcond2 : (splitBlocks bs).tool_result_blocks ≠ [] := List.ne_nil_of_mem htr
    simp only [if_neg hcond1, if_pos hcond2]
    apply List.mem_append_right
    apply List.mem_map.mpr
    refine ⟨tr, htr, ?_⟩
    rw [ht]
    rfl

/-- **C7** (witness): on the conversation of the repository test
`test_tool_use_message_conversion`, the assistant turn yields tool_call
id `toolu_abc123` and the tool_result turn yields a tool message with
the same `tool_call_id`. -/
theorem c7_witness :
    (∃ cnt tcs, OOutMsg.assistantTools cnt tcs
        ∈ anthropic_to_openai_messages (fun _ => "callgen") none c7_msgs
      ∧ tcs.map (fun tc => tc.id)
          = (splitBlocks c7_assistant_blocks).tool_use_blocks.enum.map
              (fun p => p.2.id.getD ((fun _ : Nat => "callgen") p.1)))
    ∧ (∃ c, OOutMsg.toolMsg "toolu_abc123" c
        ∈ anthropic_to_openai_messages (fun _ => "callgen") none c7_msgs) :=
  ⟨(c7_tool_id_preservation (fun _ => "callgen") none c7_msgs
      { role := "assistant", content := some (.ofBlocks c7_assistant_blocks) }
      (by decide) c7_assistant_blocks rfl).1 rfl (by decide),
   (c7_tool_id_preservation (fun _ => "callgen") none c7_msgs
      { role := "user", content := some (.ofBlocks c7_result_blocks) }
      (by decide) c7_result_blocks rfl).2
     { tool_use_id := some "toolu_abc123",
       content := some (.ofString "File content: Hello World"), is_error := false }
     (by decide) "toolu_abc123" rfl rfl⟩

/- ────────────────────────────────────────────────────────────────────
   Theorems for claim C8
   ──────────────────────────────────────────────────────────────────── -/

/-- Minted ids are never the empty string. -/
theorem oi_id_ne_empty (x y z : String) : ("oi_" ++ x ++ "_" ++ y ++ z) ≠ "" := by
  intro h
  have hd := congrArg String.data h
  change ((("oi_".data ++ x.data) ++ "_".data) ++ y.data) ++ z.data = "".data at hd
  simp at hd

/-- Characterization of `isAddedFor` on payload lines. -/
theorem isAddedFor_payload (i : Nat) (p : RPayload) :
    isAddedFor i (RLine.payload p) = true
      ↔ extract_event_type p.ptype = some "response.output_item.added"
        ∧ p.output_index = some i := by
  simp [isAddedFor]

/-- Splitting a tracker run at an append. -/
theorem fix_responses_run_append (ts : Nat → Nat) (a b : List RLine) :
    ∀ st : TrackerState,
      fix_responses_run ts st (a ++ b)
        = ((fix_responses_run ts st a).1
             ++ (fix_responses_run ts (fix_responses_run ts st a).2 b).1,
           (fix_responses_run ts (fix_responses_run ts st a).2 b).2) := by
  induction a with
  | nil => intro st; simp [fix_responses_run]
  | cons x rest ih =>
    intro st
    show ((fix_line ts st x).1 :: (fix_responses_run ts (fix_line ts st x).2 (rest ++ b)).1,
          (fix_responses_run ts (fix_line ts st x).2 (rest ++ b)).2) = _
    rw [ih]
    rfl

/-- Tracker runs preserve the number of lines. -/
theorem fix_run_length (ts : Nat → Nat) :
    ∀ (l : List RLine) (st : TrackerState),
      (fix_responses_run ts st l).1.length = l.length := by
  intro l
  induction l with
  | nil => intro st; rfl
  | cons x rest ih =>
    intro st
    show ((fix_line ts st x).1 :: (fix_responses_run ts (fix_line ts st x).2 rest).1).length
      = rest.length + 1
    simp [ih]

/-- `_handle_done` never changes the tracker state. -/
theorem handle_done_state (st : TrackerState) (p : RPayload) :
    (handle_done st p).2 = st := by
  unfold handle_done
  repeat' split
  all_goals rfl

/-- `_handle_other` never changes the tracker state. -/
theorem handle_other_state (st : TrackerState) (p : RPayload) :
    (handle_other st p).2 = st := by
  unfold handle_other
  repeat' split
  all_goals rfl

/-- Processing a line that is not the `added` event of index `i` leaves
the recorded id of `i` unchanged. -/
theorem fix_line_lookup_preserved (ts : Nat → Nat) (st : TrackerState) (l : RLine)
    (i : Nat) (h : isAddedFor i l = false) :
    (fix_line ts st l).2.output_items.lookup i = st.output_items.lookup i := by
  cases l with
  | nonData s => rfl
  | doneMarker => rfl
  | badJson s => rfl
  | payload p =>
    show (fix_stream_data ts st p).2.output_items.lookup i = _
    unfold fix_stream_data
    split_ifs with h1 h2
    · unfold handle_added
      split
      next hoi => rfl
      next j hoi =>
        have hji : (i == j) = false := by
          rw [beq_eq_false_iff_ne]
          intro he
          subst he
          have ht : isAddedFor i (RLine.payload p) = true := by
            simp [isAddedFor, h1, hoi]
          simp [ht] at h
        split_ifs with ht
        · simp [List.lookup, hji]
        · simp [generate_id, List.lookup, hji]
    · rw [handle_done_state]
    · rw [handle_other_state]

/-- Runs without an `added` event for `i` preserve its recorded id. -/
theorem fix_run_lookup_preserved (ts : Nat → Nat) :
    ∀ (l : List RLine) (st : TrackerState) (i : Nat),
      (∀ x ∈ l, isAddedFor i x = false) →
      (fix_responses_run ts st l).2.output_items.lookup i
        = st.output_items.lookup i := by
  intro l
  induction l with
  | nil => intro st i _; rfl
  | cons x rest ih =>
    intro st i h
    have hx := h x (List.mem_cons_self x rest)
    have hrest : ∀ y ∈ rest, isAddedFor i y = false :=
      fun y hy => h y (List.mem_cons_of_mem _ hy)
    show (fix_responses_run ts (fix_line ts st x).2 rest).2.output_items.lookup i = _
    rw [ih _ _ hrest, fix_line_lookup_preserved ts st x i hx]

/-- Processing one payload while `i` is recorded as `sid` patches it:
a `done` event for `i` comes out with `item.id = sid` and any other
payload bearing `i` comes out with `item_id = sid`. -/
theorem fix_stream_data_patch (ts : Nat → Nat) (st : TrackerState) (p : RPayload)
    (i : Nat) (sid : String)
    (hl : st.output_items.lookup i = some sid) (hs : sid ≠ "") :
    (isDoneFor i (RLine.payload (fix_stream_data ts st p).1) = true →
       (fix_stream_data ts st p).1.item_id = some sid)
    ∧ (isOtherFor i (RLine.payload (fix_stream_data ts st p).1) = true →
       (fix_stream_data ts st p).1.top_item_id = some sid) := by
  have hpt : (fix_stream_data ts st p).1.ptype = p.ptype := by
    unfold fix_stream_data handle_added handle_done handle_other generate_id
    repeat' split
    all_goals rfl
  have hoi : (fix_stream_data ts st p).1.output_index = p.output_index := by
    unfold fix_stream_data handle_added handle_done handle_other generate_id
    repeat' split
    all_goals rfl
  by_cases h1 : extract_event_type p.ptype = some "response.output_item.added"
  · constructor
    · intro hd
      simp only [isDoneFor] at hd
      rw [hpt, h1] at hd
      simp at hd
    · intro ho
      simp only [isOtherFor] at ho
      rw [hpt, h1] at ho
      simp at ho
  · by_cases h2 : extract_event_type p.ptype = some "response.output_item.done"
    · constructor
      · intro hd
        simp only [isDoneFor] at hd
        rw [hpt, hoi] at hd
        simp only [Bool.and_eq_true, beq_iff_eq] at hd
        show (fix_stream_data ts st p).1.item_id = some sid
        unfold fix_stream_data
        rw [if_neg h1, if_pos h2]
        unfold handle_done
        simp only [hd.2, hl]
        rw [if_pos hs]
      · intro ho
        simp only [isOtherFor] at ho
        rw [hpt] at ho
        simp [h2] at ho
    · constructor
      · intro hd
        simp only [isDoneFor] at hd
        rw [hpt] at hd
        simp [h2] at hd
      · intro ho
        simp only [isOtherFor] at ho
        rw [hpt, hoi] at ho
        simp only [Bool.and_eq_true, beq_iff_eq] at ho
        show (fix_stream_data ts st p).1.top_item_id = some sid
        unfold fix_stream_data
        rw [if_neg h1, if_neg h2]
        unfold handle_other
        simp only [ho.1, hl]
        rw [if_pos hs]

/-- Running lines without an `added` event for `i` while `i` is
recorded as `sid` patches every output payload bearing `i`: `done`
events carry `item.id = sid` and intermediate events `item_id = sid`. -/
theorem fix_run_patches (ts : Nat → Nat) :
    ∀ (l : List RLine) (st : TrackerState) (i : Nat) (sid : String),
      st.output_items.lookup i = some sid → sid ≠ "" →
      (∀ x ∈ l, isAddedFor i x = false) →
      ∀ pq : RPayload, RLine.payload pq ∈ (fix_responses_run ts st l).1 →
        (isDoneFor i (RLine.payload pq) = true → pq.item_id = some sid)
        ∧ (isOtherFor i (RLine.payload pq) = true → pq.top_item_id = some sid) := by
  intro l
  induction l with
  | nil =>
    intro st i sid _ _ _ pq hm
    simp [fix_responses_run] at hm
  | cons x rest ih =>
    intro st i sid hl hs hadd pq hm
    have hx := hadd x (List.mem_cons_self x rest)
    have hrest : ∀ y ∈ rest, isAddedFor i y = false :=
      fun y hy => hadd y (List.mem_cons_of_mem x hy)
    have hout : (fix_responses_run ts st (x :: rest)).1
        = (fix_line ts st x).1 :: (fix_responses_run ts (fix_line ts st x).2 rest).1 := rfl
    rw [hout] at hm
    rcases List.mem_cons.mp hm with he | hm2
    · cases x with
      | nonData s => exact absurd he.symm (by simp [fix_line])
      | doneMarker => exact absurd he.symm (by simp [fix_line])
      | badJson s => exact absurd he.symm (by simp [fix_line])
      | payload p =>
        have hpq : pq = (fix_stream_data ts st p).1 := by
          have hfl : (fix_line ts st (RLine.payload p)).1
              = RLine.payload (fix_stream_data ts st p).1 := rfl
          rw [hfl] at he
          exact RLine.payload.inj he
        rw [hpq]
        exact fix_stream_data_patch ts st p i sid hl hs
    · exact ih (fix_line ts st x).2 i sid
        (by rw [fix_line_lookup_preserved ts st x i hx]; exact hl) hs hrest pq hm2

/-- `_handle_added` on an `added` payload for index `i`: the output
carries a non-empty stable id (the upstream one when truthy, a minted
`oi_...` id otherwise) and the tracker records it for `i`. -/
theorem handle_added_spec (ts : Nat → Nat) (st : TrackerState) (p : RPayload) (i : Nat)
    (hidx : p.output_index = some i) :
    ∃ sid, sid ≠ ""
      ∧ (handle_added ts st p).1 = { p with item_id := some sid }
      ∧ (handle_added ts st p).2.output_items.lookup i = some sid
      ∧ (truthyStr p.item_id = true → p.item_id = some sid)
      ∧ (truthyStr p.item_id = false →
          sid = "oi_" ++ toString i ++ "_"
            ++ String.mk (hexChars (ts (st.id_counter + 1)))
            ++ String.mk (pad4 (hexChars (st.id_counter + 1)))) := by
  by_cases ht : truthyStr p.item_id = true
  · obtain ⟨s, hsome⟩ : ∃ s, p.item_id = some s := by
      cases hii : p.item_id with
      | none => rw [hii] at ht; simp [truthyStr] at ht
      | some s => exact ⟨s, rfl⟩
    have hsne : s ≠ "" := by
      rw [hsome] at ht
      simpa [truthyStr] using ht
    refine ⟨s, hsne, ?_, ?_, ?_, ?_⟩
    · unfold handle_added
      simp only [hidx]
      rw [if_pos ht]
      show p = { ptype := p.ptype, output_index := some i, item_id := some s,
                 top_item_id := p.top_item_id }
      rw [← hsome, ← hidx]
    · unfold handle_added
      simp only [hidx]
      rw [if_pos ht]
      simp [List.lookup, hsome]
    · intro
      rw [hsome]
    · intro hf
      rw [ht] at hf
      exact absurd hf (by simp)
  · have htf : truthyStr p.item_id = false := by
      cases hv : truthyStr p.item_id
      · rfl
      · exact absurd hv ht
    refine ⟨"oi_" ++ toString i ++ "_" ++ String.mk (hexChars (ts (st.id_counter + 1)))
              ++ String.mk (pad4 (hexChars (st.id_counter + 1))),
            oi_id_ne_empty _ _ _, ?_, ?_, ?_, fun _ => rfl⟩
    · unfold handle_added
      simp only [hidx]
      rw [if_neg (by rw [htf]; simp)]
      rfl
    · unfold handle_added
      simp only [hidx]
      rw [if_neg (by rw [htf]; simp)]
      simp [generate_id, List.lookup]
    · intro htr
      rw [htf] at htr
      exact absurd htr (by simp)

/-- **C8** (counterexample).  An intermediate event that reaches the
tracker before the `added` event of its `output_index` keeps its stale
upstream `item_id`: the rewritten stream's `added` and `done` events
carry the minted id `oi_0_1a0001` while the earlier intermediate event
still carries `stale`, so not every event bearing the index carries the
stable identifier. -/
theorem c8_counterexample :
    fix_responses_stream c8_ts c8_input
      = [RLine.payload c8_pre_delta,
         RLine.payload { c8_added with item_id := some "oi_0_1a0001" },
         RLine.payload { c8_done with item_id := some "oi_0_1a0001" }]
    ∧ isOtherFor 0 (RLine.payload c8_pre_delta) = true
    ∧ c8_pre_delta.top_item_id ≠ some "oi_0_1a0001" := by
  refine ⟨by decide, by decide, by decide⟩

/-- **C8** (amended).  For every input stream in which the `added`
event of an `output_index` occurs exactly once and precedes every other
payload bearing that index, the rewritten stream carries one stable,
non-empty identifier for that index: the `added` event's `item.id`
(the upstream one when present and non-empty, a minted
`oi_<output_index>_<microseconds-hex><counter-hex>` id otherwise),
which equals the `item.id` of every later `done` event and the
`item_id` of every later intermediate event bearing that index. -/
theorem c8_amended (ts : Nat → Nat) (i : Nat) (pre post : List RLine) (pAdd : RPayload)
    (hAdd : isAddedFor i (RLine.payload pAdd) = true)
    (_hpre : ∀ l ∈ pre, bearsIdx i l = false)
    (hpost : ∀ l ∈ post, isAddedFor i l = false) :
    ∃ sid, sid ≠ ""
      ∧ ∃ preOut postOut pAdd',
          fix_responses_stream ts (pre ++ RLine.payload pAdd :: post)
            = preOut ++ RLine.payload pAdd' :: postOut
          ∧ preOut.length = pre.length
          ∧ pAdd'.item_id = some sid
          ∧ (truthyStr pAdd.item_id = true → pAdd.item_id = some sid)
          ∧ (truthyStr pAdd.item_id = false →
              ∃ cnt, sid = "oi_" ++ toString i ++ "_"
                ++ String.mk (hexChars (ts cnt)) ++ String.mk (pad4 (hexChars cnt)))
          ∧ (∀ pq : RPayload, RLine.payload pq ∈ postOut →
              (isDoneFor i (RLine.payload pq) = true → pq.item_id = some sid)
              ∧ (isOtherFor i (RLine.payload pq) = true →
                  pq.top_item_id = some sid)) := by
  obtain ⟨hext, hidx⟩ := (isAddedFor_payload i pAdd).mp hAdd
  set st0 : TrackerState := { output_items := [], id_counter := 0 } with hst0
  set st1 : TrackerState := (fix_responses_run ts st0 pre).2 with hst1
  obtain ⟨sid, hsne, hout1, hlook, htruthy, hmint⟩ := handle_added_spec ts st1 pAdd i hidx
  have hfsd : fix_stream_data ts st1 pAdd = handle_added ts st1 pAdd := by
    unfold fix_stream_data
    rw [if_pos hext]
  refine ⟨sid, hsne,
          (fix_responses_run ts st0 pre).1,
          (fix_responses_run ts (fix_stream_data ts st1 pAdd).2 post).1,
          { pAdd with item_id := some sid }, ?_, ?_, rfl, htruthy, ?_, ?_⟩
  · unfold fix_responses_stream
    rw [fix_responses_run_append ts pre (RLine.payload pAdd :: post) st0]
    show (fix_responses_run ts st0 pre).1
        ++ RLine.payload (fix_stream_data ts st1 pAdd).1
            :: (fix_responses_run ts (fix_stream_data ts st1 pAdd).2 post).1 = _
    rw [hfsd, hout1]
  · exact fix_run_length ts pre st0
  · intro hf
    exact ⟨st1.id_counter + 1, hmint hf⟩
  · intro pq hm
    refine fix_run_patches ts post (fix_stream_data ts st1 pAdd).2 i sid ?_ hsne hpost pq hm
    rw [hfsd]
    exact hlook

/-- **C8** (witness for the amended theorem): on the two-line stream
`added` (no upstream id) then `done` (divergent upstream id), the
rewritten stream's head is the `added` event carrying a non-empty
minted id. -/
theorem c8_amended_witness :
    ∃ pAdd' postOut,
      fix_responses_stream c8_ts [RLine.payload c8_added, RLine.payload c8_done]
        = RLine.payload pAdd' :: postOut
      ∧ ∃ sid, pAdd'.item_id = some sid ∧ sid ≠ "" := by
  obtain ⟨sid, hs, preOut, postOut, pAdd', heq, hlen, hid, -, -, -⟩ :=
    c8_amended c8_ts 0 [] [RLine.payload c8_done] c8_added (by decide)
      (by intro l hl; simp at hl) (by decide)
  have hpre : preOut = [] := List.eq_nil_of_length_eq_zero hlen
  subst hpre
  exact ⟨pAdd', postOut, by simpa using heq, sid, hid, hs⟩

/- ────────────────────────────────────────────────────────────────────
   Theorems for claims C3 and C4
   ──────────────────────────────────────────────────────────────────── -/

/-- **C3** (counterexample).  On a text chunk followed by a tool-call
chunk, the translator emits `content_block_stop(0)` for the text block
at the moment the tool block opens — during the stream, not after the
upstream stream is exhausted as the claim requires. -/
theorem c3_counterexample :
    (runChunks uuid0 initStreamState [ck_text, ck_tool]).1
      = [AnthEvent.message_start,
         AnthEvent.content_block_start_text 0,
         AnthEvent.content_block_delta_text 0 "hi",
         AnthEvent.content_block_stop 0,
         AnthEvent.content_block_start_tool 1 "tc1" "calc",
         AnthEvent.content_block_delta_json 1 "\x7b\x7d"]
    ∧ AnthEvent.content_block_stop 0
        ∈ (runChunks uuid0 initStreamState [ck_text, ck_tool]).1 := by
  refine ⟨by decide, by decide⟩

/-- **C4**.  On a tool-call chunk followed by a text chunk, the text
block (index 1) receives a `content_block_start` but never a
`content_block_stop`: the finalize guard `not tool_call_trackers` skips
it although no tool call ever closed it, contradicting both the claim
and the finalize comment "close all open blocks". -/
theorem c4_unclosed_text_block :
    openai_stream_to_anthropic_stream uuid0 [ck_tool, ck_text]
      = [AnthEvent.message_start,
         AnthEvent.content_block_start_tool 0 "tc1" "calc",
         AnthEvent.content_block_delta_json 0 "\x7b\x7d",
         AnthEvent.content_block_start_text 1,
         AnthEvent.content_block_delta_text 1 "hi",
         AnthEvent.content_block_stop 0,
         AnthEvent.message_delta "tool_use" 0,
         AnthEvent.message_stop]
    ∧ AnthEvent.content_block_start_text 1
        ∈ openai_stream_to_anthropic_stream uuid0 [ck_tool, ck_text]
    ∧ AnthEvent.content_block_stop 1
        ∉ openai_stream_to_anthropic_stream uuid0 [ck_tool, ck_text] := by
  refine ⟨by decide, by decide, by decide⟩

/-- A successful association-list lookup is a member. -/
theorem trk_lookup_mem :
    ∀ {l : List (Nat × ToolTracker)} {k : Nat} {t : ToolTracker},
      l.lookup k = some t → (k, t) ∈ l := by
  intro l
  induction l with
  | nil => intro k t h; simp [List.lookup] at h
  | cons kv rest ih =>
    intro k t h
    rw [List.lookup] at h
    cases hb : k == kv.1 with
    | true =>
      rw [hb] at h
      simp only [Option.some.injEq] at h
      have hk : k = kv.1 := by simpa using hb
      have he : (k, t) = kv := by rw [hk, ← h]
      rw [he]
      exact List.mem_cons_self kv rest
    | false =>
      rw [hb] at h
      exact List.mem_cons_of_mem _ (ih h)

/-- A failed association-list lookup means the key is absent. -/
theorem trk_lookup_none :
    ∀ {l : List (Nat × ToolTracker)} {k : Nat},
      l.lookup k = none → ∀ kv ∈ l, kv.1 ≠ k := by
  intro l
  induction l with
  | nil => intro k _ kv hm; simp at hm
  | cons x rest ih =>
    intro k h kv hm
    rw [List.lookup] at h
    cases hb : k == x.1 with
    | true => rw [hb] at h; exact absurd h (by simp)
    | false =>
      rw [hb] at h
      rcases List.mem_cons.mp hm with he | hm2
      · subst he
        intro hk
        rw [hk] at hb
        simp at hb
      · exact ih h kv hm2

/-- Updating an entry with an equal block index leaves the key list,
the block-index list, and the length unchanged. -/
theorem trkUpdate_maps :
    ∀ {l : List (Nat × ToolTracker)} {k : Nat} {t tr : ToolTracker},
      (l.map Prod.fst).Pairwise (· ≠ ·) →
      l.lookup k = some tr → t.block_index = tr.block_index →
      (trkUpdate l k t).map (fun kv => kv.2.block_index)
          = l.map (fun kv => kv.2.block_index)
        ∧ (trkUpdate l k t).map Prod.fst = l.map Prod.fst
        ∧ (trkUpdate l k t).length = l.length := by
  intro l
  induction l with
  | nil => intro k t tr _ h _; simp [List.lookup] at h
  | cons x rest ih =>
    intro k t tr hnodup hlk hb
    rw [List.lookup] at hlk
    simp only [List.map_cons] at hnodup
    obtain ⟨hnd1, hnd2⟩ := List.pairwise_cons.mp hnodup
    cases hbk : k == x.1 with
    | true =>
      rw [hbk] at hlk
      simp only [Option.some.injEq] at hlk
      have hk : k = x.1 := by simpa using hbk
      have hrest : rest.map (fun kv => if kv.1 = k then (k, t) else kv) = rest := by
        have hcg : ∀ kv ∈ rest, (fun kv => if kv.1 = k then (k, t) else kv) kv
            = id kv := by
          intro kv hkv
          have hne : kv.1 ≠ k := by
            intro he
            exact hnd1 kv.1 (List.mem_map_of_mem Prod.fst hkv) (by rw [he, hk])
          simp [hne]
        rw [List.map_congr_left hcg, List.map_id]
      have hupd : trkUpdate (x :: rest) k t = (k, t) :: rest := by
        unfold trkUpdate
        rw [List.map_cons, hrest, if_pos hk.symm]
      rw [hupd]
      refine ⟨?_, ?_, ?_⟩
      · rw [List.map_cons, List.map_cons, hb, ← hlk]
      · rw [List.map_cons, List.map_cons]
        show k :: _ = x.1 :: _
        rw [hk]
      · simp
    | false =>
      rw [hbk] at hlk
      have hkx : k ≠ x.1 := by
        intro he
        rw [he] at hbk
        simp at hbk
      have hupd : trkUpdate (x :: rest) k t = x :: trkUpdate rest k t := by
        unfold trkUpdate
        rw [List.map_cons, if_neg (fun he => hkx he.symm)]
      obtain ⟨ihb, ihk, ihl⟩ := ih hnd2 hlk hb
      rw [hupd]
      refine ⟨?_, ?_, ?_⟩
      · rw [List.map_cons, List.map_cons, ihb]
      · rw [List.map_cons, List.map_cons, ihk]
      · simp only [List.length_cons, ihl]

/-- `insertSorted` permutes consing. -/
theorem insertSorted_perm (kv : Nat × ToolTracker) :
    ∀ l : List (Nat × ToolTracker), (insertSorted kv l).Perm (kv :: l) := by
  intro l
  induction l with
  | nil => simp [insertSorted]
  | cons x xs ih =>
    unfold insertSorted
    split_ifs with h
    · exact List.Perm.refl _
    · exact List.Perm.trans (List.Perm.cons x ih) (List.Perm.swap kv x xs)

/-- `sortByKey` is a permutation of the tracker list. -/
theorem sortByKey_perm : ∀ l : List (Nat × ToolTracker), (sortByKey l).Perm l := by
  intro l
  induction l with
  | nil => simp [sortByKey]
  | cons x xs ih =>
    have he : sortByKey (x :: xs) = insertSorted x (sortByKey xs) := rfl
    rw [he]
    exact List.Perm.trans (insertSorted_perm x _) (List.Perm.cons x ih)

/-- A block index occurring once in a duplicate-free list contributes
exactly one `content_block_stop` to the mapped stop list. -/
theorem count_stop_map_of_mem :
    ∀ (bs : List Nat) (b : Nat), bs.Pairwise (· ≠ ·) → b ∈ bs →
      (bs.map AnthEvent.content_block_stop).count (AnthEvent.content_block_stop b)
        = 1 := by
  intro bs
  induction bs with
  | nil => intro b _ hm; simp at hm
  | cons a rest ih =>
    intro b hp hm
    obtain ⟨h1, h2⟩ := List.pairwise_cons.mp hp
    rcases List.mem_cons.mp hm with he | hm2
    · subst he
      rw [List.map_cons, List.count_cons_self]
      have hz : (rest.map AnthEvent.content_block_stop).count
          (AnthEvent.content_block_stop b) = 0 := by
        rw [List.count_eq_zero]
        intro hmem
        obtain ⟨c, hc, he2⟩ := List.mem_map.mp hmem
        have hcb : c = b := by
          injection he2
        exact h1 c hc hcb.symm
      rw [hz]
    · have hne : AnthEvent.content_block_stop b ≠ AnthEvent.content_block_stop a := by
        intro he2
        have : b = a := by injection he2
        exact h1 b hm2 this.symm
      rw [List.map_cons, List.count_cons_of_ne hne]
      exact ih b h2 hm2

/-- A block index absent from a list contributes no stop to the mapped
stop list. -/
theorem count_stop_map_of_not_mem (bs : List Nat) (b : Nat) (h : b ∉ bs) :
    (bs.map AnthEvent.content_block_stop).count (AnthEvent.content_block_stop b)
      = 0 := by
  rw [List.count_eq_zero]
  intro hmem
  obtain ⟨c, hc, he⟩ := List.mem_map.mp hmem
  have : c = b := by injection he
  exact h (this ▸ hc)

/-- The run-time invariant of the streaming translator, tying the state
to the events emitted so far: tracker keys and block indices are
duplicate-free and below `next_block_index`, tool blocks and (if open)
the text block occupy distinct indices, no stop has been emitted for
any tool block, every emitted stop targets the open text block and
presupposes an existing tracker, and at most one text stop exists. -/
structure StreamInv (st : StreamState) (evs : List AnthEvent) : Prop where
  keys_nodup : (st.trackers.map Prod.fst).Pairwise (· ≠ ·)
  blocks_nodup : (st.trackers.map (fun kv => kv.2.block_index)).Pairwise (· ≠ ·)
  blocks_lt : ∀ b ∈ st.trackers.map (fun kv => kv.2.block_index),
    b < st.next_block_index
  text_lt : st.sent_text_block_start = true →
    st.text_block_index < st.next_block_index
  blocks_ne_text : st.sent_text_block_start = true →
    ∀ b ∈ st.trackers.map (fun kv => kv.2.block_index), b ≠ st.text_block_index
  no_tool_stops : ∀ b ∈ st.trackers.map (fun kv => kv.2.block_index),
    evs.count (AnthEvent.content_block_stop b) = 0
  stops_shape : ∀ j, AnthEvent.content_block_stop j ∈ evs →
    j = st.text_block_index ∧ st.sent_text_block_start = true ∧ st.trackers ≠ []
  text_stops_le : evs.count (AnthEvent.content_block_stop st.text_block_index) ≤ 1

/-- The invariant holds initially. -/
theorem streamInv_init : StreamInv initStreamState [] := by
  constructor <;> simp [initStreamState]

/-- Appending stop-free events preserves the invariant. -/
theorem streamInv_append_no_stops (st : StreamState) (evs seg : List AnthEvent)
    (hinv : StreamInv st evs) (h : ∀ j, AnthEvent.content_block_stop j ∉ seg) :
    StreamInv st (evs ++ seg) := by
  have hcnt : ∀ b, (evs ++ seg).count (AnthEvent.content_block_stop b)
      = evs.count (AnthEvent.content_block_stop b) := by
    intro b
    rw [List.count_append, List.count_eq_zero.mpr (h b), Nat.add_zero]
  refine ⟨hinv.keys_nodup, hinv.blocks_nodup, hinv.blocks_lt, hinv.text_lt,
          hinv.blocks_ne_text, ?_, ?_, ?_⟩
  · intro b hb
    rw [hcnt]
    exact hinv.no_tool_stops b hb
  · intro j hj
    rcases List.mem_append.mp hj with h1 | h2
    · exact hinv.stops_shape j h1
    · exact absurd h2 (h j)
  · rw [hcnt]
    exact hinv.text_stops_le

/-- Changing only invariant-irrelevant state fields preserves it. -/
theorem streamInv_of_fields_eq (st st2 : StreamState) (evs : List AnthEvent)
    (hinv : StreamInv st evs)
    (h1 : st2.trackers = st.trackers)
    (h2 : st2.next_block_index = st.next_block_index)
    (h3 : st2.text_block_index = st.text_block_index)
    (h4 : st2.sent_text_block_start = st.sent_text_block_start) :
    StreamInv st2 evs := by
  refine ⟨?_, ?_, ?_, ?_, ?_, ?_, ?_, ?_⟩
  · rw [h1]; exact hinv.keys_nodup
  · rw [h1]; exact hinv.blocks_nodup
  · rw [h1, h2]; exact hinv.blocks_lt
  · rw [h4, h3, h2]; exact hinv.text_lt
  · rw [h4, h1, h3]; exact hinv.blocks_ne_text
  · rw [h1]; exact hinv.no_tool_stops
  · rw [h3, h4, h1]; exact hinv.stops_shape
  · rw [h3]; exact hinv.text_stops_le

/-- Opening the text block (first content while no text block is open)
preserves the invariant: the new text index is fresh and the two
emitted events contain no stop. -/
theorem streamInv_text_open (st : StreamState) (evs : List AnthEvent) (s : String)
    (hinv : StreamInv st evs) (hsent : st.sent_text_block_start = false) :
    StreamInv
      { st with text_block_index := st.next_block_index,
                next_block_index := st.next_block_index + 1,
                sent_text_block_start := true, has_text := true }
      (evs ++ [AnthEvent.content_block_start_text st.next_block_index,
               AnthEvent.content_block_delta_text st.next_block_index s]) := by
  have hnostop : ∀ j, AnthEvent.content_block_stop j
      ∉ [AnthEvent.content_block_start_text st.next_block_index,
         AnthEvent.content_block_delta_text st.next_block_index s] := by
    intro j
    simp
  have hnoevstop : ∀ j, AnthEvent.content_block_stop j ∉ evs := by
    intro j hj
    have := (hinv.stops_shape j hj).2.1
    rw [hsent] at this
    exact absurd this (by simp)
  have hcnt : ∀ b, (evs ++ [AnthEvent.content_block_start_text st.next_block_index,
      AnthEvent.content_block_delta_text st.next_block_index s]).count
        (AnthEvent.content_block_stop b) = 0 := by
    intro b
    rw [List.count_append, List.count_eq_zero.mpr (hnoevstop b),
        List.count_eq_zero.mpr (hnostop b)]
  refine ⟨hinv.keys_nodup, hinv.blocks_nodup, ?_, ?_, ?_, ?_, ?_, ?_⟩
  · intro b hb
    exact Nat.lt_succ_of_lt (hinv.blocks_lt b hb)
  · intro
    exact Nat.lt_succ_self _
  · intro _ b hb
    exact Nat.ne_of_lt (hinv.blocks_lt b hb)
  · intro b _
    exact hcnt b
  · intro j hj
    rcases List.mem_append.mp hj with h1 | h2
    · exact absurd h1 (hnoevstop j)
    · exact absurd h2 (hnostop j)
  · rw [hcnt]
    exact Nat.zero_le 1

/-- Replacing the tracker list by one with the same keys, block indices
and length preserves the invariant. -/
theorem streamInv_trackers_congr (st st2 : StreamState) (evs : List AnthEvent)
    (hinv : StreamInv st evs)
    (hk : st2.trackers.map Prod.fst = st.trackers.map Prod.fst)
    (hb : st2.trackers.map (fun kv => kv.2.block_index)
        = st.trackers.map (fun kv => kv.2.block_index))
    (hlen : st2.trackers.length = st.trackers.length)
    (h2 : st2.next_block_index = st.next_block_index)
    (h3 : st2.text_block_index = st.text_block_index)
    (h4 : st2.sent_text_block_start = st.sent_text_block_start) :
    StreamInv st2 evs := by
  have hne : st.trackers ≠ [] → st2.trackers ≠ [] := by
    intro h he
    rw [he] at hlen
    exact h (List.eq_nil_of_length_eq_zero hlen.symm)
  refine ⟨?_, ?_, ?_, ?_, ?_, ?_, ?_, ?_⟩
  · rw [hk]; exact hinv.keys_nodup
  · rw [hb]; exact hinv.blocks_nodup
  · rw [hb, h2]; exact hinv.blocks_lt
  · rw [h4, h3, h2]; exact hinv.text_lt
  · rw [h4, hb, h3]; exact hinv.blocks_ne_text
  · rw [hb]; exact hinv.no_tool_stops
  · intro j hj
    obtain ⟨e1, e2, e3⟩ := hinv.stops_shape j hj
    exact ⟨by rw [h3, e1], by rw [h4, e2], hne e3⟩
  · rw [h3]; exact hinv.text_stops_le

/-- Processing one tool-call delta preserves the invariant. -/
theorem processToolDelta_inv (uuid : Nat → String) (st : StreamState) (tc : TCDelta)
    (evs : List AnthEvent) (hinv : StreamInv st evs) :
    StreamInv (processToolDelta uuid st tc).2
      (evs ++ (processToolDelta uuid st tc).1) := by
  cases hlk : st.trackers.lookup tc.index with
  | some tracker =>
    have hres1 : (processToolDelta uuid st tc).1
        = (if tc.arguments ≠ "" then
            [AnthEvent.content_block_delta_json tracker.block_index tc.arguments]
           else []) := by
      unfold processToolDelta
      rw [hlk]
    have hres2 : (processToolDelta uuid st tc).2
        = { st with trackers := (trkUpdate st.trackers tc.index
              { tracker with
                id := if truthyStr tc.id && (tracker.id == "") then tc.id.getD ""
                      else tracker.id,
                name := if truthyStr tc.name && (tracker.name == "") then
                          tc.name.getD ""
                        else tracker.name }) } := by
      unfold processToolDelta
      rw [hlk]
    rw [hres1, hres2]
    obtain ⟨hbm, hkm, hlen⟩ := @trkUpdate_maps st.trackers tc.index
      ({ tracker with
         id := if truthyStr tc.id && (tracker.id == "") then tc.id.getD ""
               else tracker.id,
         name := if truthyStr tc.name && (tracker.name == "") then tc.name.getD ""
                 else tracker.name }) tracker hinv.keys_nodup hlk rfl
    refine streamInv_append_no_stops _ evs _ ?_ ?_
    · exact streamInv_trackers_congr st _ evs hinv hkm hbm hlen rfl rfl rfl
    · intro j hj
      split_ifs at hj <;> simp at hj
  | none =>
    have hkeys := trk_lookup_none hlk
    have hres1 : (processToolDelta uuid st tc).1
        = (if st.sent_text_block_start
              && !(st.trackers.any (fun kv => kv.2.text_closed))
              && st.trackers.isEmpty then
             [AnthEvent.content_block_stop st.text_block_index]
           else [])
          ++ [AnthEvent.content_block_start_tool st.next_block_index
                (pyOr tc.id (uuid st.next_block_index)) (pyOr tc.name "")]
          ++ (if tc.arguments ≠ "" then
                [AnthEvent.content_block_delta_json st.next_block_index tc.arguments]
              else []) := by
      unfold processToolDelta
      rw [hlk]
    have hres2 : (processToolDelta uuid st tc).2
        = { st with
            trackers := st.trackers
              ++ [(tc.index,
                   { id := pyOr tc.id (uuid st.next_block_index),
                     name := pyOr tc.name "",
                     block_index := st.next_block_index,
                     started := true, text_closed := true })],
            next_block_index := st.next_block_index + 1 } := by
      unfold processToolDelta
      rw [hlk]
    rw [hres1, hres2]
    have hARfree : ∀ j, AnthEvent.content_block_stop j
        ∉ (if tc.arguments ≠ "" then
            [AnthEvent.content_block_delta_json st.next_block_index tc.arguments]
           else []) := by
      intro j hj
      split_ifs at hj <;> simp at hj
    have hTLfree : ∀ j, AnthEvent.content_block_stop j
        ∉ [AnthEvent.content_block_start_tool st.next_block_index
            (pyOr tc.id (uuid st.next_block_index)) (pyOr tc.name "")] := by
      intro j hj
      simp at hj
    have hnextstop : AnthEvent.content_block_stop st.next_block_index ∉ evs := by
      intro hj
      obtain ⟨e1, e2, -⟩ := hinv.stops_shape _ hj
      have h3 := hinv.text_lt e2
      omega
    by_cases hcl : (st.sent_text_block_start
        && !(st.trackers.any (fun kv => kv.2.text_closed))
        && st.trackers.isEmpty) = true
    · -- first tool call with the text block open: it gets closed here
      have hsent : st.sent_text_block_start = true := by
        simp only [Bool.and_eq_true] at hcl
        exact hcl.1.1
      have hempty : st.trackers = [] := by
        simp only [Bool.and_eq_true, List.isEmpty_iff] at hcl
        exact hcl.2
      have hnoev : ∀ j, AnthEvent.content_block_stop j ∉ evs :=
        fun j hj => absurd hempty (hinv.stops_shape j hj).2.2
      have htlt := hinv.text_lt hsent
      have hmemchar : ∀ j, AnthEvent.content_block_stop j
          ∈ evs ++ ([AnthEvent.content_block_stop st.text_block_index]
              ++ [AnthEvent.content_block_start_tool st.next_block_index
                    (pyOr tc.id (uuid st.next_block_index)) (pyOr tc.name "")]
              ++ (if tc.arguments ≠ "" then
                    [AnthEvent.content_block_delta_json st.next_block_index tc.arguments]
                  else [])) →
          j = st.text_block_index := by
        intro j hj
        rcases List.mem_append.mp hj with h1 | h12
        · exact absurd h1 (hnoev j)
        · rcases List.mem_append.mp h12 with h2 | h3
          · rcases List.mem_append.mp h2 with h4 | h5
            · simpa using h4
            · exact absurd h5 (hTLfree j)
          · exact absurd h3 (hARfree j)
      have hcnt : ∀ b : Nat,
          (evs ++ ([AnthEvent.content_block_stop st.text_block_index]
              ++ [AnthEvent.content_block_start_tool st.next_block_index
                    (pyOr tc.id (uuid st.next_block_index)) (pyOr tc.name "")]
              ++ (if tc.arguments ≠ "" then
                    [AnthEvent.content_block_delta_json st.next_block_index tc.arguments]
                  else []))).count (AnthEvent.content_block_stop b)
          = List.count (AnthEvent.content_block_stop b)
              [AnthEvent.content_block_stop st.text_block_index] := by
        intro b
        rw [List.count_append, List.count_eq_zero.mpr (hnoev b), Nat.zero_add,
            List.count_append, List.count_append,
            List.count_eq_zero.mpr (hARfree b), Nat.add_zero,
            List.count_eq_zero.mpr (hTLfree b), Nat.add_zero]
      rw [if_pos hcl, hempty]
      refine ⟨?_, ?_, ?_, ?_, ?_, ?_, ?_, ?_⟩
      · simp
      · simp
      · intro b hb
        simp only [List.nil_append, List.map_cons, List.map_nil,
          List.mem_singleton] at hb
        subst hb
        simp only []
        omega
      · intro
        simp only []
        omega
      · intro _ b hb
        simp only [List.nil_append, List.map_cons, List.map_nil,
          List.mem_singleton] at hb
        subst hb
        simp only []
        omega
      · intro b hb
        simp only [List.nil_append, List.map_cons, List.map_nil,
          List.mem_singleton] at hb
        subst hb
        rw [hcnt, List.count_eq_zero]
        intro hmem
        simp only [List.mem_singleton] at hmem
        have hx : st.next_block_index = st.text_block_index := by
          injection hmem
        omega
      · intro j hj
        have hjt := hmemchar j hj
        refine ⟨hjt, hsent, by simp⟩
      · rw [hcnt]
        simp [List.count_cons]
    · -- no close event: either no text block is open or a tracker exists
      have hsegfree : ∀ j, AnthEvent.content_block_stop j
          ∉ (if st.sent_text_block_start
                && !(st.trackers.any (fun kv => kv.2.text_closed))
                && st.trackers.isEmpty then
               [AnthEvent.content_block_stop st.text_block_index]
             else [])
            ++ [AnthEvent.content_block_start_tool st.next_block_index
                  (pyOr tc.id (uuid st.next_block_index)) (pyOr tc.name "")]
            ++ (if tc.arguments ≠ "" then
                  [AnthEvent.content_block_delta_json st.next_block_index tc.arguments]
                else []) := by
        intro j hj
        rcases List.mem_append.mp hj with h12 | h3
        · rcases List.mem_append.mp h12 with h1 | h2
          · rw [if_neg hcl] at h1
            simp at h1
          · exact absurd h2 (hTLfree j)
        · exact absurd h3 (hARfree j)
      have hcnt : ∀ b : Nat,
          (evs ++ ((if st.sent_text_block_start
                && !(st.trackers.any (fun kv => kv.2.text_closed))
                && st.trackers.isEmpty then
               [AnthEvent.content_block_stop st.text_block_index]
             else [])
            ++ [AnthEvent.content_block_start_tool st.next_block_index
                  (pyOr tc.id (uuid st.next_block_index)) (pyOr tc.name "")]
            ++ (if tc.arguments ≠ "" then
                  [AnthEvent.content_block_delta_json st.next_block_index tc.arguments]
                else []))).count (AnthEvent.content_block_stop b)
          = evs.count (AnthEvent.content_block_stop b) := by
        intro b
        rw [List.count_append, List.count_eq_zero.mpr (hsegfree b), Nat.add_zero]
      refine ⟨?_, ?_, ?_, ?_, ?_, ?_, ?_, ?_⟩
      · simp only [List.map_append]
        rw [List.pairwise_append]
        refine ⟨hinv.keys_nodup, by simp, ?_⟩
        intro a ha b hb
        simp only [List.map_cons, List.map_nil, List.mem_singleton] at hb
        subst hb
        obtain ⟨kv, hkv, hkva⟩ := List.mem_map.mp ha
        rw [← hkva]
        exact hkeys kv hkv
      · simp only [List.map_append]
        rw [List.pairwise_append]
        refine ⟨hinv.blocks_nodup, by simp, ?_⟩
        intro a ha b hb
        simp only [List.map_cons, List.map_nil, List.mem_singleton] at hb
        subst hb
        exact Nat.ne_of_lt (hinv.blocks_lt a ha)
      · intro b hb
        simp only [List.map_append] at hb
        rcases List.mem_append.mp hb with h1 | h2
        · exact Nat.lt_succ_of_lt (hinv.blocks_lt b h1)
        · simp only [List.map_cons, List.map_nil, List.mem_singleton] at h2
          subst h2
          exact Nat.lt_succ_self _
      · intro hs
        exact Nat.lt_succ_of_lt (hinv.text_lt hs)
      · intro hs b hb
        simp only [List.map_append] at hb
        rcases List.mem_append.mp hb with h1 | h2
        · exact hinv.blocks_ne_text hs b h1
        · simp only [List.map_cons, List.map_nil, List.mem_singleton] at h2
          subst h2
          have := hinv.text_lt hs
          simp only []
          omega
      · intro b hb
        rw [hcnt]
        simp only [List.map_append] at hb
        rcases List.mem_append.mp hb with h1 | h2
        · exact hinv.no_tool_stops b h1
        · simp only [List.map_cons, List.map_nil, List.mem_singleton] at h2
          subst h2
          exact List.count_eq_zero.mpr hnextstop
      · intro j hj
        rcases List.mem_append.mp hj with h1 | h2
        · obtain ⟨e1, e2, e3⟩ := hinv.stops_shape j h1
          refine ⟨e1, e2, ?_⟩
          simp only [ne_eq, List.append_eq_nil]
          rintro ⟨hc, -⟩
          exact e3 hc
        · exact absurd h2 (hsegfree j)
      · rw [hcnt]
        exact hinv.text_stops_le

/-- The finish-reason phase touches no invariant-relevant field. -/
theorem chunkFinishState_inv (st : StreamState) (choice : ChunkChoice)
    (evs : List AnthEvent) (hinv : StreamInv st evs) :
    StreamInv (chunkFinishState st choice) evs := by
  refine streamInv_of_fields_eq st _ evs hinv ?_ ?_ ?_ ?_ <;>
    (unfold chunkFinishState; split_ifs <;> rfl)

/-- The text phase preserves the invariant. -/
theorem chunkTextPhase_inv (st : StreamState) (choice : ChunkChoice)
    (evs : List AnthEvent) (hinv : StreamInv st evs) :
    StreamInv (chunkTextPhase st choice).2
      (evs ++ (chunkTextPhase st choice).1) := by
  unfold chunkTextPhase
  split_ifs with h1 h2
  · exact streamInv_text_open st evs (choice.content.getD "") hinv h2
  · refine streamInv_append_no_stops _ evs _ ?_ ?_
    · exact streamInv_of_fields_eq st _ evs hinv rfl rfl rfl rfl
    · intro j hj
      simp at hj
  · simpa using hinv

/-- The tool-call phase preserves the invariant (fold over
`processToolDelta`). -/
theorem chunkToolPhase_inv (uuid : Nat → String) :
    ∀ (tcs : List TCDelta) (st : StreamState) (evs0 acc : List AnthEvent),
      StreamInv st (evs0 ++ acc) →
      StreamInv (tcs.foldl (fun (acc : List AnthEvent × StreamState) tc =>
          let r := processToolDelta uuid acc.2 tc
          (acc.1 ++ r.1, r.2)) (acc, st)).2
        (evs0 ++ (tcs.foldl (fun (acc : List AnthEvent × StreamState) tc =>
          let r := processToolDelta uuid acc.2 tc
          (acc.1 ++ r.1, r.2)) (acc, st)).1) := by
  intro tcs
  induction tcs with
  | nil => intro st evs0 acc h; exact h
  | cons tc rest ih =>
    intro st evs0 acc h
    have h2 : StreamInv (processToolDelta uuid st tc).2
        (evs0 ++ (acc ++ (processToolDelta uuid st tc).1)) := by
      have h3 := processToolDelta_inv uuid st tc (evs0 ++ acc) h
      rwa [List.append_assoc] at h3
    exact ih (processToolDelta uuid st tc).2 evs0
      (acc ++ (processToolDelta uuid st tc).1) h2

/-- The usage phase touches no invariant-relevant field. -/
theorem chunkUsageState_inv (st : StreamState) (ck : Chunk)
    (evs : List AnthEvent) (hinv : StreamInv st evs) :
    StreamInv (chunkUsageState st ck) evs := by
  refine streamInv_of_fields_eq st _ evs hinv ?_ ?_ ?_ ?_ <;>
    (unfold chunkUsageState; cases ck.usage <;> rfl)

/-- A successfully processed chunk preserves the invariant. -/
theorem processChunk_inv (uuid : Nat → String) (st : StreamState) (ck : Chunk)
    (evs cevs : List AnthEvent) (st2 : StreamState)
    (hinv : StreamInv st evs)
    (h : processChunk uuid st ck = (cevs, some st2)) :
    StreamInv st2 (evs ++ cevs) := by
  cases hh : (ck.choices.getD
      [{ finish_reason := none, content := none, tool_calls := none }]).head? with
  | none =>
    have hres : processChunk uuid st ck
        = ((if st.sent_start = false then [AnthEvent.message_start] else []), none) := by
      unfold processChunk
      rw [hh]
    rw [hres] at h
    exact absurd (congrArg Prod.snd h) (by simp)
  | some choice =>
    have hres : processChunk uuid st ck
        = ((if st.sent_start = false then [AnthEvent.message_start] else [])
             ++ (chunkTextPhase (chunkFinishState { st with sent_start := true } choice)
                   choice).1
             ++ (chunkToolPhase uuid
                   (chunkTextPhase (chunkFinishState { st with sent_start := true }
                      choice) choice).2 choice).1,
           some (chunkUsageState
             (chunkToolPhase uuid
               (chunkTextPhase (chunkFinishState { st with sent_start := true }
                  choice) choice).2 choice).2 ck)) := by
      unfold processChunk
      rw [hh]
    rw [hres] at h
    have hev : cevs = (if st.sent_start = false then [AnthEvent.message_start] else [])
        ++ (chunkTextPhase (chunkFinishState { st with sent_start := true } choice)
              choice).1
        ++ (chunkToolPhase uuid
              (chunkTextPhase (chunkFinishState { st with sent_start := true }
                 choice) choice).2 choice).1 :=
      (congrArg Prod.fst h).symm
    have hst : st2 = chunkUsageState
        (chunkToolPhase uuid
          (chunkTextPhase (chunkFinishState { st with sent_start := true }
             choice) choice).2 choice).2 ck := by
      have h2 := congrArg Prod.snd h
      simp only [Option.some.injEq] at h2
      exact h2.symm
    subst hev
    subst hst
    -- chain the phases
    have A0 : StreamInv { st with sent_start := true }
        (evs ++ (if st.sent_start = false then [AnthEvent.message_start] else [])) := by
      refine streamInv_append_no_stops _ evs _ ?_ ?_
      · exact streamInv_of_fields_eq st _ evs hinv rfl rfl rfl rfl
      · intro j hj
        split_ifs at hj <;> simp at hj
    have A1 := chunkFinishState_inv { st with sent_start := true } choice _ A0
    have A2 := chunkTextPhase_inv (chunkFinishState { st with sent_start := true }
        choice) choice _ A1
    have A3 : StreamInv (chunkToolPhase uuid
        (chunkTextPhase (chunkFinishState { st with sent_start := true }
           choice) choice).2 choice).2
        ((evs ++ (if st.sent_start = false then [AnthEvent.message_start] else [])
           ++ (chunkTextPhase (chunkFinishState { st with sent_start := true }
                 choice) choice).1)
          ++ (chunkToolPhase uuid
               (chunkTextPhase (chunkFinishState { st with sent_start := true }
                  choice) choice).2 choice).1) := by
      unfold chunkToolPhase
      cases htc : choice.tool_calls with
      | none => simpa using A2
      | some tcs =>
        have := chunkToolPhase_inv uuid tcs
          (chunkTextPhase (chunkFinishState { st with sent_start := true }
             choice) choice).2
          (evs ++ (if st.sent_start = false then [AnthEvent.message_start] else [])
            ++ (chunkTextPhase (chunkFinishState { st with sent_start := true }
                  choice) choice).1)
          [] (by simpa using A2)
        exact this
    have A4 := chunkUsageState_inv _ ck _ A3
    simpa [List.append_assoc] using A4

/-- Every successful run of the per-chunk phase satisfies the
invariant. -/
theorem runChunks_inv (uuid : Nat → String) :
    ∀ (chunks : List Chunk) (st : StreamState) (evs0 : List AnthEvent)
      (evs : List AnthEvent) (stF : StreamState),
      StreamInv st evs0 →
      runChunks uuid st chunks = (evs, some stF) →
      StreamInv stF (evs0 ++ evs) := by
  intro chunks
  induction chunks with
  | nil =>
    intro st evs0 evs stF hinv h
    have h1 : ([] : List AnthEvent) = evs := congrArg Prod.fst h
    have h2 : some st = some stF := congrArg Prod.snd h
    simp only [Option.some.injEq] at h2
    subst h2
    subst h1
    simpa using hinv
  | cons ck rest ih =>
    intro st evs0 evs stF hinv h
    cases hpc : processChunk uuid st ck with
    | mk cevs ost =>
      cases ost with
      | none =>
        have hres : runChunks uuid st (ck :: rest) = (cevs, none) := by
          unfold runChunks
          rw [hpc]
        rw [hres] at h
        have h2 := congrArg Prod.snd h
        simp at h2
      | some st1 =>
        have hres : runChunks uuid st (ck :: rest)
            = (cevs ++ (runChunks uuid st1 rest).1, (runChunks uuid st1 rest).2) := by
          conv_lhs => rw [runChunks]
          rw [hpc]
        rw [hres] at h
        have h1 : cevs ++ (runChunks uuid st1 rest).1 = evs := congrArg Prod.fst h
        have h2 : (runChunks uuid st1 rest).2 = some stF := congrArg Prod.snd h
        have hrest : runChunks uuid st1 rest
            = ((runChunks uuid st1 rest).1, some stF) := by
          rw [← h2]
        have hinv1 := processChunk_inv uuid st ck evs0 cevs st1 hinv hpc
        have h3 := ih st1 (evs0 ++ cevs) (runChunks uuid st1 rest).1 stF hinv1 hrest
        rw [List.append_assoc] at h3
        rw [← h1]
        exact h3

/-- **C3** (amended).  For every crash-free input stream (`evs` are the
events emitted while consuming the upstream, `st` the state at
exhaustion): the output ends with `message_delta` (carrying the mapped
stop reason and output token count) followed by `message_stop`; every
opened tool block receives no stop during the stream and exactly one
stop in the whole output (emitted at finalize, in ascending upstream
tool-call-index order); any stop emitted during the stream targets the
open text block and happens only once a tool block exists (the early
close when the first tool block opens after text); when the text block
is open and no tool block was ever opened, it receives exactly one stop
(at finalize); the text block never receives more than one stop during
the stream — in particular a text block opened after the first tool
block receives none. -/
theorem c3_amended (uuid : Nat → String) (chunks : List Chunk)
    (evs : List AnthEvent) (st : StreamState)
    (hrun : runChunks uuid initStreamState chunks = (evs, some st)) :
    (∃ pre, openai_stream_to_anthropic_stream uuid chunks
        = pre ++ [AnthEvent.message_delta st.finish_reason st.output_tokens,
                  AnthEvent.message_stop])
    ∧ (∀ kv ∈ st.trackers,
        evs.count (AnthEvent.content_block_stop kv.2.block_index) = 0
        ∧ (openai_stream_to_anthropic_stream uuid chunks).count
            (AnthEvent.content_block_stop kv.2.block_index) = 1)
    ∧ (∀ j, AnthEvent.content_block_stop j ∈ evs →
        j = st.text_block_index ∧ st.sent_text_block_start = true
          ∧ st.trackers ≠ [])
    ∧ (st.sent_text_block_start = true → st.trackers = [] →
        (openai_stream_to_anthropic_stream uuid chunks).count
          (AnthEvent.content_block_stop st.text_block_index) = 1)
    ∧ evs.count (AnthEvent.content_block_stop st.text_block_index) ≤ 1 := by
  have hinv : StreamInv st evs := by
    have h0 := runChunks_inv uuid chunks initStreamState [] evs st streamInv_init hrun
    simpa using h0
  have hfull : openai_stream_to_anthropic_stream uuid chunks
      = evs ++ finalizeEvents st := by
    unfold openai_stream_to_anthropic_stream
    rw [hrun]
  refine ⟨?_, ?_, hinv.stops_shape, ?_, hinv.text_stops_le⟩
  · refine ⟨evs ++ ((if st.sent_text_block_start = true ∧ st.trackers = [] then
        [AnthEvent.content_block_stop st.text_block_index] else [])
        ++ (sortByKey st.trackers).map
            (fun kv => AnthEvent.content_block_stop kv.2.block_index)), ?_⟩
    rw [hfull]
    unfold finalizeEvents
    simp [List.append_assoc]
  · intro kv hkv
    have hbmem : kv.2.block_index ∈ st.trackers.map (fun kv => kv.2.block_index) :=
      List.mem_map_of_mem _ hkv
    have hz := hinv.no_tool_stops _ hbmem
    refine ⟨hz, ?_⟩
    rw [hfull]
    unfold finalizeEvents
    rw [List.count_append, hz, Nat.zero_add, List.count_append, List.count_append]
    have htne : st.trackers ≠ [] := List.ne_nil_of_mem hkv
    have hA : List.count (AnthEvent.content_block_stop kv.2.block_index)
        (if st.sent_text_block_start = true ∧ st.trackers = [] then
          [AnthEvent.content_block_stop st.text_block_index] else []) = 0 := by
      rw [if_neg]
      · rfl
      · rintro ⟨-, hc⟩
        exact htne hc
    have hperm : ((sortByKey st.trackers).map
          (fun kv => AnthEvent.content_block_stop kv.2.block_index)).count
          (AnthEvent.content_block_stop kv.2.block_index)
        = (st.trackers.map
            (fun kv => AnthEvent.content_block_stop kv.2.block_index)).count
          (AnthEvent.content_block_stop kv.2.block_index) :=
      ((sortByKey_perm st.trackers).map _).count_eq _
    have hB : (st.trackers.map
          (fun kv => AnthEvent.content_block_stop kv.2.block_index)).count
          (AnthEvent.content_block_stop kv.2.block_index) = 1 := by
      rw [show st.trackers.map (fun kv => AnthEvent.content_block_stop kv.2.block_index)
          = (st.trackers.map (fun kv => kv.2.block_index)).map
              AnthEvent.content_block_stop from by rw [List.map_map]; rfl]
      exact count_stop_map_of_mem _ _ hinv.blocks_nodup hbmem
    have hC : List.count (AnthEvent.content_block_stop kv.2.block_index)
        [AnthEvent.message_delta st.finish_reason st.output_tokens,
         AnthEvent.message_stop] = 0 := by
      simp
    rw [hA, hperm, hB, hC]
  · intro hsent hempty
    rw [hfull]
    unfold finalizeEvents
    rw [List.count_append, List.count_append, List.count_append]
    have hevz : evs.count (AnthEvent.content_block_stop st.text_block_index) = 0 := by
      rw [List.count_eq_zero]
      intro hm
      exact (hinv.stops_shape _ hm).2.2 hempty
    have hA : List.count (AnthEvent.content_block_stop st.text_block_index)
        (if st.sent_text_block_start = true ∧ st.trackers = [] then
          [AnthEvent.content_block_stop st.text_block_index] else []) = 1 := by
      rw [if_pos ⟨hsent, hempty⟩]
      simp
    have hB : ((sortByKey st.trackers).map
          (fun kv => AnthEvent.content_block_stop kv.2.block_index)).count
        (AnthEvent.content_block_stop st.text_block_index) = 0 := by
      rw [hempty]
      rfl
    have hC : List.count (AnthEvent.content_block_stop st.text_block_index)
        [AnthEvent.message_delta st.finish_reason st.output_tokens,
         AnthEvent.message_stop] = 0 := by
      simp
    rw [hevz, hA, hB, hC]

/-- **C3** (witness for the amended theorem): on a single text chunk the
whole stream carries exactly one stop for the text block (index 0). -/
theorem c3_amended_witness :
    (openai_stream_to_anthropic_stream uuid0 [ck_text]).count
      (AnthEvent.content_block_stop 0) = 1 := by
  have h := c3_amended uuid0 [ck_text]
    [AnthEvent.message_start, AnthEvent.content_block_start_text 0,
     AnthEvent.content_block_delta_text 0 "hi"]
    { sent_start := true, sent_text_block_start := true, trackers := [],
      next_block_index := 1, text_block_index := 0, has_text := true,
      finish_reason := "end_turn", input_tokens := 0, output_tokens := 0 }
    (by decide)
  exact h.2.2.2.1 rfl rfl

end CopilotX
